import Mathlib

/-!
# Expense tracker front end: verification development

Shallow embedding of the client-side logic of the expense tracker
(`src/pages/MonthlyView.jsx`, `src/pages/Categories.jsx`,
`src/pages/Dashboard.jsx`, `src/context/AuthContext.jsx`,
`src/services/api.js`, the route guard of `src/App.jsx`) together with the
properties established about it.

Conventions of the embedding

* An amount is the rational value of the number received.  `aggregate` adds
  amounts exactly; `aggregateWith` is the same pass with the arithmetic of the
  totals as a parameter (`Arith`), of which nothing is assumed, so that it
  covers the rounding addition of IEEE doubles.
* A JavaScript number that is an integer or `NaN` is an `Option Int`
  (`none` is `NaN`).
* The JavaScript `Date` built-ins used by the source (`new Date(string)`,
  `getFullYear`, `getMonth`) depend on the environment the page runs in.  The
  environment is an explicit parameter `rt : Runtime`: what `new Date(string)`
  returns, and the offset of local time from UTC.  The getters read the fields
  of the *local* time, as ECMAScript prescribes.  `ecmaRuntime tz` is the
  runtime that reads a date-only ISO string `YYYY-MM-DD` as midnight UTC of
  that day, as ECMAScript prescribes, and whose zone is `tz` minutes east of
  UTC.  The general properties of the aggregation are proved for every
  runtime.
* The object `monthsMap` is an association list in insertion order, which is
  the order `Object.values` enumerates non-index string keys in.
* An asynchronous routine of a view is a function of the token, of the
  outcomes of the calls it awaits and of the local state it starts from; it
  returns the local state when it has finished and the list of its effects
  (requests, navigation, logout, dialogs, console output) in the order it
  issues them.  A call scheduled with `setTimeout` is a `delayed` effect, and
  a call of the view's own fetch routine from a handler is the effect
  `refetch`.
-/

namespace ExpenseTracker

/-! ## Data model -/

/-- Category record as delivered by the backend. -/
structure Category where
  id : Int
  name : String
  type : String
deriving DecidableEq, Repr

/-- Expense record as delivered by the backend; `category` may be null. -/
structure Expense where
  id : Int
  amount : ℚ
  description : String
  date : String
  category : Option Category
deriving DecidableEq, Repr

/-- Accumulator stored in `monthsMap` and element of `monthsArray`. -/
structure MonthGroup where
  year : Option Int
  month : Option Int
  expenses : List Expense
  total_income : ℚ
  total_expenses : ℚ
  net_balance : ℚ
deriving DecidableEq, Repr

/-! ## The JavaScript `Date` built-ins used by the source -/

/-- Milliseconds per day. -/
def msPerDay : Int := 86400000

/-- Day number (days since 1970-01-01) of a proleptic Gregorian civil date;
ECMAScript `MakeDay`. -/
def daysFromCivil (y m d : Int) : Int :=
  let y1 := if m ≤ 2 then y - 1 else y
  let era := y1 / 400
  let yoe := y1 - era * 400
  let mp := if m > 2 then m - 3 else m + 9
  let doy := (153 * mp + 2) / 5 + d - 1
  let doe := yoe * 365 + yoe / 4 - yoe / 100 + doy
  era * 146097 + doe - 719468

/-- Civil date (year, month 1..12, day 1..31) of a day number; the inverse of
`daysFromCivil`, ECMAScript `YearFromTime`, `MonthFromTime`, `DateFromTime`. -/
def civilFromDays (z : Int) : Int × Int × Int :=
  let z1 := z + 719468
  let era := z1 / 146097
  let doe := z1 - era * 146097
  let yoe := (doe - doe / 1460 + doe / 36524 - doe / 146096) / 365
  let doy := doe - (365 * yoe + yoe / 4 - yoe / 100)
  let mp := (5 * doy + 2) / 153
  let d := doy - (153 * mp + 2) / 5 + 1
  let m := if mp < 10 then mp + 3 else mp - 9
  let y := yoe + era * 400
  (if m ≤ 2 then y + 1 else y, m, d)

/-- Leap years of the Gregorian calendar. -/
def isLeapYear (y : Int) : Bool :=
  y % 4 = 0 && (y % 100 ≠ 0 || y % 400 = 0)

/-- Number of days of month `m` (1..12) in year `y`. -/
def daysInMonth (y m : Int) : Int :=
  if m = 2 then (if isLeapYear y then 29 else 28)
  else if m = 4 ∨ m = 6 ∨ m = 9 ∨ m = 11 then 30
  else 31

/-- Value of a decimal digit character. -/
def digitVal (c : Char) : Option Int :=
  if c.isDigit then some ((c.toNat : Int) - 48) else none

/-- Reads the date-only ISO form `YYYY-MM-DD`; `none` unless the string has
exactly that shape and names an existing calendar day. -/
def parseIsoDate (s : String) : Option (Int × Int × Int) :=
  match s.toList with
  | [y1, y2, y3, y4, '-', m1, m2, '-', d1, d2] =>
    match digitVal y1, digitVal y2, digitVal y3, digitVal y4,
          digitVal m1, digitVal m2, digitVal d1, digitVal d2 with
    | some a, some b, some c, some d, some e, some f, some g, some h =>
      let y := 1000 * a + 100 * b + 10 * c + d
      let m := 10 * e + f
      let dd := 10 * g + h
      if 1 ≤ m ∧ m ≤ 12 ∧ 1 ≤ dd ∧ dd ≤ daysInMonth y m then some (y, m, dd) else none
    | _, _, _, _, _, _, _, _ => none
  | _ => none

/-- Time value of `new Date(s)` for a date-only ISO string, in milliseconds
since the epoch: midnight UTC of that day.  Any other string is an invalid
date here (`none`); what an engine makes of other formats is left to the
`Runtime` parameter. -/
def dateParse (s : String) : Option Int :=
  (parseIsoDate s).map fun ymd => daysFromCivil ymd.1 ymd.2.1 ymd.2.2 * msPerDay

/-- The environment the page runs in, as far as the `Date` built-ins depend on
it: the result of `new Date(string)` as a time value (`none` for an invalid
date), and the offset of local time from UTC, in milliseconds, at a given
time value. -/
structure Runtime where
  dateParse : String → Option Int
  localTZA : Int → Int

/-- A runtime that follows ECMAScript on date-only strings and whose zone is
constantly `tz` minutes east of UTC (negative: west of UTC). -/
def ecmaRuntime (tz : Int) : Runtime :=
  { dateParse := dateParse, localTZA := fun _ => tz * 60000 }

/-- Local time of a time value. -/
def localTime (rt : Runtime) (t : Int) : Int := t + rt.localTZA t

/-- `Date.prototype.getFullYear`. -/
def getFullYear (rt : Runtime) (date : Option Int) : Option Int :=
  date.map fun t => (civilFromDays (localTime rt t / msPerDay)).1

/-- `Date.prototype.getMonth` (0-based). -/
def getMonth (rt : Runtime) (date : Option Int) : Option Int :=
  date.map fun t => (civilFromDays (localTime rt t / msPerDay)).2.1 - 1

/-- Number-to-string conversion for integers and `NaN`. -/
def numToString : Option Int → String
  | none => "NaN"
  | some n => toString n

/-- `String.prototype.padStart(2, '0')`. -/
def padStart2 (s : String) : String :=
  String.mk (List.replicate (2 - s.length) '0') ++ s

/-! ## Monthly aggregation (`MonthlyView.fetchMonthlyData`, lines 33-66) -/

/-- The `monthKey` computed for an expense. -/
def monthKey (rt : Runtime) (expense : Expense) : String :=
  let date := rt.dateParse expense.date
  numToString (getFullYear rt date) ++ "-" ++
    padStart2 (numToString ((getMonth rt date).map (· + 1)))

/-- Property lookup `monthsMap[monthKey]`. -/
def lookupKey (k : String) : List (String × MonthGroup) → Option MonthGroup
  | [] => none
  | (k1, g) :: rest => if k1 = k then some g else lookupKey k rest

/-- In-place update of the object stored under `k`. -/
def modifyKey (k : String) (f : MonthGroup → MonthGroup) :
    List (String × MonthGroup) → List (String × MonthGroup)
  | [] => []
  | (k1, g) :: rest => if k1 = k then (k1, f g) :: rest else (k1, g) :: modifyKey k f rest

/-- The test `expense.category?.type === 'income'`. -/
def isIncome (expense : Expense) : Bool :=
  match expense.category with
  | some c => c.type = "income"
  | none => false

/-- The statements executed on the group once it exists: push the expense and
add its amount to one of the two running totals.  The addition here is exact;
`pushExpenseWith` is the same statement in the arithmetic of the runtime. -/
def pushExpense (expense : Expense) (g : MonthGroup) : MonthGroup :=
  let g1 := { g with expenses := g.expenses ++ [expense] }
  if isIncome expense then { g1 with total_income := g1.total_income + expense.amount }
  else { g1 with total_expenses := g1.total_expenses + expense.amount }

/-- Body of the `forEach` callback. -/
def addExpense (rt : Runtime) (monthsMap : List (String × MonthGroup)) (expense : Expense) :
    List (String × MonthGroup) :=
  let date := rt.dateParse expense.date
  let k := monthKey rt expense
  let monthsMap1 :=
    if (lookupKey k monthsMap).isNone then
      monthsMap ++ [(k, { year := getFullYear rt date
                          month := (getMonth rt date).map (· + 1)
                          expenses := []
                          total_income := 0
                          total_expenses := 0
                          net_balance := 0 })]
    else monthsMap
  modifyKey k (pushExpense expense) monthsMap1

/-- The object `monthsMap` after the `forEach` loop. -/
def buildMonthsMap (rt : Runtime) (allExpenses : List Expense) : List (String × MonthGroup) :=
  allExpenses.foldl (addExpense rt) []

/-- The `map` callback: recompute `net_balance`. -/
def withNetBalance (month : MonthGroup) : MonthGroup :=
  { month with net_balance := month.total_income - month.total_expenses }

/-- Subtraction of two numbers that are integers or `NaN`. -/
def numSub (a b : Option Int) : Option Int :=
  match a, b with
  | some x, some y => some (x - y)
  | _, _ => none

/-- The strict inequality `!==` on numbers: `NaN` differs from everything,
itself included. -/
def numNe (a b : Option Int) : Bool :=
  match a, b with
  | some x, some y => x ≠ y
  | _, _ => true

/-- The comparator handed to `sort`. -/
def compareMonths (a b : MonthGroup) : Option Int :=
  if numNe b.year a.year then numSub b.year a.year
  else numSub b.month a.month

/-- The order `sort` derives from the comparator: `a` may stay before `b`
when the comparator result is not positive; a `NaN` result counts as `0`. -/
def monthsLe (a b : MonthGroup) : Prop :=
  (compareMonths a b).getD 0 ≤ 0

instance : DecidableRel monthsLe := fun a b => by
  unfold monthsLe; exact inferInstance

/-- `Array.prototype.sort` with the comparator above: a stable sort. -/
def sortMonths (l : List MonthGroup) : List MonthGroup :=
  l.insertionSort monthsLe

/-- The value handed to `setMonthlyData`: the array `monthsArray`. -/
def aggregate (rt : Runtime) (allExpenses : List Expense) : List MonthGroup :=
  sortMonths (((buildMonthsMap rt allExpenses).map Prod.snd).map withNetBalance)

/-- The month key spelled from the `year` and `month` fields of a group. -/
def groupKey (g : MonthGroup) : String :=
  numToString g.year ++ "-" ++ padStart2 (numToString g.month)

/-- Sum of the amounts of a list of expenses. -/
def sumAmounts (l : List Expense) : ℚ := (l.map (·.amount)).sum

/-! ## API client (`src/services/api.js`) -/

/-- The constant `API_BASE_URL`. -/
def API_BASE_URL : String := "http://localhost:8000"

/-- HTTP methods used by the client. -/
inductive Method
  | GET
  | POST
  | PUT
  | DELETE
deriving DecidableEq, Repr

/-- The object `expenseData` sent when an expense is created or updated;
`none` stands for `NaN` in the two numeric fields. -/
structure ExpenseData where
  amount : Option ℚ
  description : String
  category_id : Option Int
  date : String
deriving DecidableEq, Repr

/-- The object `categoryData` sent when a category is created. -/
structure CategoryData where
  name : String
  type : String
deriving DecidableEq, Repr

/-- Request payloads. -/
inductive Body
  | userData (fields : List (String × String))
  | urlEncoded (params : List (String × String))
  | expenseData (d : ExpenseData)
  | categoryData (d : CategoryData)
deriving DecidableEq, Repr

/-- The request an API function hands to axios: method, URL, the headers of
the config object, and the payload. -/
structure Request where
  method : Method
  url : String
  headers : List (String × String)
  data : Option Body
deriving DecidableEq, Repr

/-- Interpolation of an integer in a template literal. -/
def intToString (n : Int) : String := toString n

/-- The API function `register`: POST of the user payload, no config object. -/
def register (userData : List (String × String)) : Request :=
  { method := .POST
    url := API_BASE_URL ++ "/auth/register"
    headers := []
    data := some (.userData userData) }

/-- The API function `login`: POST of the form-encoded credentials. -/
def login (email password : String) : Request :=
  let formData := [("username", email), ("password", password)]
  { method := .POST
    url := API_BASE_URL ++ "/auth/login"
    headers := [("Content-Type", "application/x-www-form-urlencoded")]
    data := some (.urlEncoded formData) }

/-- The API function `getCurrentUser`: GET of the profile behind the token. -/
def getCurrentUser (token : String) : Request :=
  { method := .GET
    url := API_BASE_URL ++ "/auth/me"
    headers := [("Authorization", "Bearer " ++ token)]
    data := none }

/-- The API function `getExpenses`: GET of one page of expenses; `skip` and `limit` default to 0 and 100. -/
def getExpenses (token : String) (skip : Int := 0) (limit : Int := 100) : Request :=
  { method := .GET
    url := API_BASE_URL ++ "/expenses/?skip=" ++ intToString skip ++ "&limit=" ++ intToString limit
    headers := [("Authorization", "Bearer " ++ token)]
    data := none }

/-- The API function `createExpense`: POST of a new expense. -/
def createExpense (token : String) (expenseData : ExpenseData) : Request :=
  { method := .POST
    url := API_BASE_URL ++ "/expenses/"
    headers := [("Authorization", "Bearer " ++ token), ("Content-Type", "application/json")]
    data := some (.expenseData expenseData) }

/-- The API function `updateExpense`: PUT of an expense by id. -/
def updateExpense (token : String) (expenseId : Int) (expenseData : ExpenseData) : Request :=
  { method := .PUT
    url := API_BASE_URL ++ "/expenses/" ++ intToString expenseId
    headers := [("Authorization", "Bearer " ++ token), ("Content-Type", "application/json")]
    data := some (.expenseData expenseData) }

/-- The API function `deleteExpense`: DELETE of an expense by id. -/
def deleteExpense (token : String) (expenseId : Int) : Request :=
  { method := .DELETE
    url := API_BASE_URL ++ "/expenses/" ++ intToString expenseId
    headers := [("Authorization", "Bearer " ++ token)]
    data := none }

/-- The API function `getCategories`: GET of the category list. -/
def getCategories (token : String) : Request :=
  { method := .GET
    url := API_BASE_URL ++ "/categories/"
    headers := [("Authorization", "Bearer " ++ token)]
    data := none }

/-- The API function `createCategory`: POST of a new category. -/
def createCategory (token : String) (categoryData : CategoryData) : Request :=
  { method := .POST
    url := API_BASE_URL ++ "/categories/"
    headers := [("Authorization", "Bearer " ++ token), ("Content-Type", "application/json")]
    data := some (.categoryData categoryData) }

/-- The API function `deleteCategory`: DELETE of a category by id. -/
def deleteCategory (token : String) (categoryId : Int) : Request :=
  { method := .DELETE
    url := API_BASE_URL ++ "/categories/" ++ intToString categoryId
    headers := [("Authorization", "Bearer " ++ token)]
    data := none }

/-- The API function `getDashboard`: GET of the dashboard analytics. -/
def getDashboard (token : String) : Request :=
  { method := .GET
    url := API_BASE_URL ++ "/analytics/dashboard"
    headers := [("Authorization", "Bearer " ++ token)]
    data := none }

/-- The API function `getCategoryBreakdown`: GET of the breakdown by category. -/
def getCategoryBreakdown (token : String) : Request :=
  { method := .GET
    url := API_BASE_URL ++ "/analytics/by-category"
    headers := [("Authorization", "Bearer " ++ token)]
    data := none }

/-- The API function `getMonthlySummary`: GET of the monthly summary; `months` defaults to 6. -/
def getMonthlySummary (token : String) (months : Int := 6) : Request :=
  { method := .GET
    url := API_BASE_URL ++ "/analytics/monthly?months=" ++ intToString months
    headers := [("Authorization", "Bearer " ++ token)]
    data := none }

/-- Headers of a request that carry the name `Authorization`. -/
def authorizationHeaders (r : Request) : List String :=
  (r.headers.filter (fun h => h.1 = "Authorization")).map Prod.snd

/-- The error object an awaited API call rejects with: `err.response?.status`,
`err.response?.data?.detail` and `err.message`. -/
structure ApiError where
  status : Option Nat
  detail : Option String
  message : String
deriving DecidableEq, Repr

/-! ## Session context (`src/context/AuthContext.jsx`) -/

/-- User profile cached by the context. -/
structure User where
  id : Int
  email : String
deriving DecidableEq, Repr

/-- Modelled from the spec: the Session Store `utils/auth.js` (`getToken`,
`saveToken`, `removeToken`) is not among the sources.  Following section 4.1
it is a single persisted token value: `getToken` reads it without side
effect. -/
def getToken (persisted : Option String) : Option String := persisted

/-- Modelled from the spec: `saveToken(token)` persists the token, overwriting
any existing value (`utils/auth.js` is not among the sources). -/
def saveToken (token : String) (_persisted : Option String) : Option String := some token

/-- Modelled from the spec: `removeToken()` clears the persisted token
(`utils/auth.js` is not among the sources). -/
def removeToken (_persisted : Option String) : Option String := none

/-- State of the session context: the persisted token of the session store,
the live `token` state and the cached `user` state. -/
structure AuthState where
  persisted : Option String
  token : Option String
  user : Option User
deriving DecidableEq, Repr

/-- JavaScript truthiness of a token value that is `null` or a string. -/
def truthy : Option String → Bool
  | none => false
  | some t => t ≠ ""

/-- Initialisation of `AuthProvider`: the two `useState` calls, then the mount
effect. -/
def AuthProvider.init (persisted : Option String) : AuthState :=
  let s0 : AuthState := { persisted := persisted, token := getToken persisted, user := none }
  let savedToken := getToken s0.persisted
  if truthy savedToken then { s0 with token := savedToken } else s0

/-- The mutator `loginUser`. -/
def AuthProvider.loginUser (newToken : String) (s : AuthState) : AuthState :=
  let s1 := { s with persisted := saveToken newToken s.persisted }
  { s1 with token := some newToken }

/-- The mutator `logoutUser`. -/
def AuthProvider.logoutUser (s : AuthState) : AuthState :=
  let s1 := { s with persisted := removeToken s.persisted }
  let s2 := { s1 with token := none }
  { s2 with user := none }

/-- The mutator `setUser` exposed by the context. -/
def AuthProvider.setUser (u : Option User) (s : AuthState) : AuthState :=
  { s with user := u }

/-- Calls a consumer of the context can make. -/
inductive AuthAction
  | loginUser (newToken : String)
  | logoutUser
  | setUser (u : Option User)
deriving DecidableEq, Repr

/-- One call on the context. -/
def AuthProvider.step (s : AuthState) : AuthAction → AuthState
  | .loginUser t => AuthProvider.loginUser t s
  | .logoutUser => AuthProvider.logoutUser s
  | .setUser u => AuthProvider.setUser u s

/-- A sequence of calls, starting from the initialised context. -/
def AuthProvider.run (persisted : Option String) (actions : List AuthAction) : AuthState :=
  actions.foldl AuthProvider.step (AuthProvider.init persisted)

/-! ## View controllers -/

/-- Observable actions of a view controller, in the order they are issued. -/
inductive Effect
  | request (r : Request)
  | navigate (path : String)
  | logoutUser
  | alert (message : String)
  | consoleError
  | delayed (ms : Nat) (e : Effect)
  | confirm (message : String)
  | refetch
  | consoleLog
deriving DecidableEq, Repr

/-- Local state of `MonthlyView`. -/
structure MonthlyViewState where
  monthlyData : List MonthGroup
  selectedMonth : Option Nat
  loading : Bool
  error : String
deriving DecidableEq, Repr

/-- Initial local state of `MonthlyView` (the four `useState` calls). -/
def MonthlyView.initialState : MonthlyViewState :=
  { monthlyData := [], selectedMonth := none, loading := true, error := "" }

/-- The routine `MonthlyView.fetchMonthlyData`.  `token` is the token of the
session context, `response` the outcome of the awaited `getExpenses(token)`;
the result is the local state when the routine has finished and the effects
it issued. -/
def MonthlyView.fetchMonthlyData (rt : Runtime) (token : Option String)
    (response : Except ApiError (List Expense)) (s : MonthlyViewState) :
    MonthlyViewState × List Effect :=
  let s1 := { s with loading := true }
  let s2 := { s1 with error := "" }
  match token with
  | none => ({ s2 with loading := false }, [.navigate "/login"])
  | some t =>
    if t = "" then ({ s2 with loading := false }, [.navigate "/login"])
    else
      match response with
      | .ok allExpenses =>
        let monthsArray := aggregate rt allExpenses
        let s3 := { s2 with monthlyData := monthsArray }
        ({ s3 with loading := false }, [.request (getExpenses t)])
      | .error err =>
        if err.status = some 401 then
          ({ s2 with loading := false },
            [.request (getExpenses t), .logoutUser, .navigate "/login", .consoleError])
        else
          let s3 := { s2 with error := "Failed to load monthly data" }
          ({ s3 with loading := false }, [.request (getExpenses t), .consoleError])

/-- The placeholder branch of the render: `monthlyData.length === 0`. -/
def MonthlyView.showsNoDataPlaceholder (s : MonthlyViewState) : Bool :=
  s.monthlyData.length = 0

/-! ## Categories view (`src/pages/Categories.jsx`, lines 91-92) -/

/-- The list `incomeCategories`. -/
def incomeCategories (categories : List Category) : List Category :=
  categories.filter (fun cat => cat.type = "income")

/-- The list `expenseCategories`. -/
def expenseCategories (categories : List Category) : List Category :=
  categories.filter (fun cat => cat.type = "expense")


/-- An expense whose category exists and has type `income`. -/
def hasIncomeCategory (e : Expense) : Prop :=
  ∃ c, e.category = some c ∧ c.type = "income"

instance (e : Expense) : Decidable (hasIncomeCategory e) :=
  match h : e.category with
  | none => isFalse (fun ⟨_, hc, _⟩ => by rw [h] at hc; cases hc)
  | some c =>
    if ht : c.type = "income" then isTrue ⟨c, h, ht⟩
    else isFalse (fun ⟨_, hc, ht2⟩ => by rw [h] at hc; cases hc; exact ht ht2)

/-- Group `a` lies strictly after group `b` in calendar order: both carry a
numeric year and month, and `(a.year, a.month)` is lexicographically greater
than `(b.year, b.month)`. -/
def strictlyAfter (a b : MonthGroup) : Prop :=
  match a.year, a.month, b.year, b.month with
  | some ya, some ma, some yb, some mb => yb < ya ∨ (yb = ya ∧ mb < ma)
  | _, _, _, _ => False

instance : DecidableRel strictlyAfter := fun a b => by
  unfold strictlyAfter; split <;> exact inferInstance

/-- A group whose `year` and `month` are numbers, not `NaN`. -/
def hasNumericMonth (g : MonthGroup) : Prop :=
  g.year.isSome = true ∧ g.month.isSome = true

instance (g : MonthGroup) : Decidable (hasNumericMonth g) := by
  unfold hasNumericMonth; exact inferInstance

/-- The example input of the specification: an expense of 50 on 2024-01-15,
an income of 200 on 2024-01-20, an expense of 30 on 2024-02-01. -/
def specExample : List Expense :=
  [ { id := 1, amount := 50, description := "groceries", date := "2024-01-15",
      category := some { id := 1, name := "Food", type := "expense" } },
    { id := 2, amount := 200, description := "salary", date := "2024-01-20",
      category := some { id := 2, name := "Salary", type := "income" } },
    { id := 3, amount := 30, description := "bus pass", date := "2024-02-01",
      category := some { id := 1, name := "Food", type := "expense" } } ]


/-- Value of a list of decimal digit characters, most significant first,
continuing from `acc`. -/
def digitsValueFrom (acc : Nat) (cs : List Char) : Nat :=
  cs.foldl (fun a c => 10 * a + (c.toNat - 48)) acc


/-- The group created for a month key that is not yet in `monthsMap`. -/
def freshGroup (rt : Runtime) (expense : Expense) : MonthGroup :=
  { year := getFullYear rt (rt.dateParse expense.date)
    month := (getMonth rt (rt.dateParse expense.date)).map (· + 1)
    expenses := []
    total_income := 0
    total_expenses := 0
    net_balance := 0 }

/-- What holds of `monthsMap` after the `forEach` loop has processed `es`. -/
structure MapInv (rt : Runtime) (es : List Expense) (M : List (String × MonthGroup)) : Prop where
  nodup : (M.map Prod.fst).Nodup
  covers : ∀ e ∈ es, monthKey rt e ∈ M.map Prod.fst
  members : ∀ kg ∈ M, kg.2.expenses = es.filter (fun e => monthKey rt e = kg.1)
  income : ∀ kg ∈ M, kg.2.total_income = sumAmounts (kg.2.expenses.filter (fun e => isIncome e))
  outgo : ∀ kg ∈ M, kg.2.total_expenses = sumAmounts (kg.2.expenses.filter (fun e => !isIncome e))
  origin : ∀ kg ∈ M, ∃ e ∈ es, monthKey rt e = kg.1 ∧
      kg.2.year = getFullYear rt (rt.dateParse e.date) ∧
      kg.2.month = (getMonth rt (rt.dateParse e.date)).map (· + 1)
  perm : (M.flatMap (fun kg => kg.2.expenses)).Perm es

/-! ## Route guard (`src/App.jsx`, lines 10-13) -/

/-- The component `ProtectedRoute`: with a truthy token it renders its
children, here the outcome `children` of mounting the guarded view; otherwise
it renders `<Navigate to="/login" />` and the view is not mounted (`none`). -/
def ProtectedRoute {σ : Type} (token : Option String) (children : σ × List Effect) :
    Option σ × List Effect :=
  if truthy token then (some children.1, children.2)
  else (none, [.navigate "/login"])

/-- Interpolation of the context token in a template literal; `null` prints
as `null`. -/
def tokenString : Option String → String
  | none => "null"
  | some t => t

/-! ## Categories view (`src/pages/Categories.jsx`) -/

/-- Local state of `Categories`. -/
structure CategoriesState where
  categories : List Category
  loading : Bool
  error : String
  showForm : Bool
  formData : CategoryData
deriving DecidableEq, Repr

/-- Initial local state of `Categories` (the five `useState` calls). -/
def Categories.initialState : CategoriesState :=
  { categories := [], loading := true, error := "", showForm := false,
    formData := { name := "", type := "expense" } }

/-- State of `Categories` after `setLoading(true); setError('')`. -/
def Categories.fetchStart (s : CategoriesState) : CategoriesState :=
  let s1 := { s with loading := true }
  { s1 with error := "" }

/-- The routine `Categories.fetchCategories`.  `response` is the outcome of
the awaited `getCategories(token)`. -/
def Categories.fetchCategories (token : Option String)
    (response : Except ApiError (List Category)) (s : CategoriesState) :
    CategoriesState × List Effect :=
  let s2 := Categories.fetchStart s
  if !truthy token then
    let s3 := { s2 with error := "Not authenticated. Please login again." }
    ({ s3 with loading := false }, [.navigate "/login"])
  else
    match response with
    | .ok data =>
      let s3 := { s2 with categories := data }
      ({ s3 with loading := false }, [.request (getCategories (tokenString token))])
    | .error err =>
      if err.status = some 401 then
        let s3 := { s2 with error := "Session expired. Please login again." }
        ({ s3 with loading := false },
          [.request (getCategories (tokenString token)),
           .delayed 2000 .logoutUser, .delayed 2000 (.navigate "/login"), .consoleError])
      else
        let s3 := { s2 with error := "Failed to load categories" }
        ({ s3 with loading := false },
          [.request (getCategories (tokenString token)), .consoleError])

/-- The handler `Categories.handleSubmit`.  `response` is the outcome of the
awaited `createCategory(token, formData)`. -/
def Categories.handleSubmit (token : Option String) (response : Except ApiError Unit)
    (s : CategoriesState) : CategoriesState × List Effect :=
  match response with
  | .ok _ =>
    let s1 := { s with formData := { name := "", type := "expense" } }
    let s2 := { s1 with showForm := false }
    (s2, [.request (createCategory (tokenString token) s.formData), .refetch,
          .alert "Category added successfully!"])
  | .error _ =>
    (s, [.request (createCategory (tokenString token) s.formData),
         .alert "Failed to add category", .consoleError])

/-- The handler `Categories.handleDelete`.  `confirmed` is what
`window.confirm` returned, `response` the outcome of the awaited
`deleteCategory(token, categoryId)`. -/
def Categories.handleDelete (token : Option String) (categoryId : Int) (confirmed : Bool)
    (response : Except ApiError Unit) (s : CategoriesState) : CategoriesState × List Effect :=
  if confirmed then
    match response with
    | .ok _ =>
      (s, [.confirm "Are you sure you want to delete this category?",
           .request (deleteCategory (tokenString token) categoryId), .refetch,
           .alert "Category deleted successfully!"])
    | .error _ =>
      (s, [.confirm "Are you sure you want to delete this category?",
           .request (deleteCategory (tokenString token) categoryId),
           .alert "Failed to delete category. It might be in use by expenses.",
           .consoleError])
  else (s, [.confirm "Are you sure you want to delete this category?"])

/-- What can happen to a mounted `Categories` view: a run of the fetch
routine, a form submission, a click on a delete button. -/
inductive CategoriesEvent
  | fetch (response : Except ApiError (List Category))
  | submit (response : Except ApiError Unit)
  | delete (categoryId : Int) (confirmed : Bool) (response : Except ApiError Unit)

/-- The state of `Categories` after an event. -/
def Categories.step (token : Option String) (s : CategoriesState) :
    CategoriesEvent → CategoriesState
  | .fetch response => (Categories.fetchCategories token response s).1
  | .submit response => (Categories.handleSubmit token response s).1
  | .delete categoryId confirmed response =>
    (Categories.handleDelete token categoryId confirmed response s).1

/-! ## Dashboard view (`src/pages/Dashboard.jsx`) -/

/-- The analytics object returned by `getDashboard`, as far as the view reads
it; an absent field is `none`. -/
structure Analytics where
  total_income : Option ℚ
  total_expenses : Option ℚ
  net_balance : Option ℚ
deriving DecidableEq, Repr

/-- The object `formData` of the expense form; every field is the string held
by its input element. -/
structure ExpenseForm where
  amount : String
  description : String
  category_id : String
  date : String
deriving DecidableEq, Repr

/-- Local state of `Dashboard`. -/
structure DashboardState where
  analytics : Option Analytics
  expenses : List Expense
  categories : List Category
  loading : Bool
  error : String
  showForm : Bool
  formData : ExpenseForm
deriving DecidableEq, Repr

/-- Built-ins `Dashboard` relies on: `parseFloat`, `parseInt` (`none` is
`NaN`) and the value of `new Date().toISOString().split('T')[0]`. -/
structure DashboardEnv where
  parseFloat : String → Option ℚ
  parseInt : String → Option Int
  today : String

/-- Initial local state of `Dashboard` (the seven `useState` calls). -/
def Dashboard.initialState (env : DashboardEnv) : DashboardState :=
  { analytics := none, expenses := [], categories := [], loading := true, error := "",
    showForm := false,
    formData := { amount := "", description := "", category_id := "", date := env.today } }

/-- State of `Dashboard` after `setLoading(true); setError('')`. -/
def Dashboard.fetchStart (s : DashboardState) : DashboardState :=
  let s1 := { s with loading := true }
  { s1 with error := "" }

/-- The `catch` and `finally` blocks of `Dashboard.fetchData`. -/
def Dashboard.fetchFailed (s : DashboardState) : DashboardState :=
  let s1 := { s with error := "Failed to load data. Please try again." }
  { s1 with loading := false }

/-- The routine `Dashboard.fetchData`.  The three responses are the outcomes
of the awaited `getDashboard(token)`, `getExpenses(token)` and
`getCategories(token)`; a later request is issued only when the earlier ones
succeeded. -/
def Dashboard.fetchData (token : Option String)
    (analyticsResponse : Except ApiError Analytics)
    (expensesResponse : Except ApiError (List Expense))
    (categoriesResponse : Except ApiError (List Category))
    (s : DashboardState) : DashboardState × List Effect :=
  let s2 := Dashboard.fetchStart s
  let t := tokenString token
  match analyticsResponse with
  | .error _ => (Dashboard.fetchFailed s2, [.request (getDashboard t), .consoleError])
  | .ok analyticsData =>
    let s3 := { s2 with analytics := some analyticsData }
    match expensesResponse with
    | .error _ =>
      (Dashboard.fetchFailed s3,
        [.request (getDashboard t), .request (getExpenses t), .consoleError])
    | .ok expensesData =>
      let s4 := { s3 with expenses := expensesData }
      match categoriesResponse with
      | .error _ =>
        (Dashboard.fetchFailed s4,
          [.request (getDashboard t), .request (getExpenses t), .request (getCategories t),
           .consoleError])
      | .ok categoriesData =>
        let s5 := { s4 with categories := categoriesData }
        ({ s5 with loading := false },
          [.request (getDashboard t), .request (getExpenses t), .request (getCategories t)])

/-- `String.prototype.includes` for a one-character search string. -/
def includesChar (s : String) (c : Char) : Bool := s.data.contains c

/-- The first element of `s.split(c)` for a one-character separator: the part
of `s` before the first `c`, all of `s` when `c` does not occur. -/
def splitHead (s : String) (c : Char) : String :=
  String.mk (s.data.takeWhile (fun x => x ≠ c))

/-- The value `dateValue` computed by `Dashboard.handleSubmit` (lines 72-74). -/
def normalizeDate (date : String) : String :=
  if includesChar date 'T' then splitHead date 'T' else date

/-- The message operand `err.response?.data?.detail || err.message`. -/
def errorDetail (err : ApiError) : String :=
  match err.detail with
  | some d => if d ≠ "" then d else err.message
  | none => err.message

/-- The handler `Dashboard.handleSubmit`.  `response` is the outcome of the
awaited `createExpense(token, expenseData)`. -/
def Dashboard.handleSubmit (env : DashboardEnv) (token : Option String)
    (response : Except ApiError Unit) (s : DashboardState) : DashboardState × List Effect :=
  let dateValue := normalizeDate s.formData.date
  let expenseData : ExpenseData :=
    { amount := env.parseFloat s.formData.amount
      description := s.formData.description
      category_id := env.parseInt s.formData.category_id
      date := dateValue }
  match response with
  | .ok _ =>
    let s1 := { s with formData :=
      { amount := "", description := "", category_id := "", date := env.today } }
    let s2 := { s1 with showForm := false }
    (s2, [.consoleLog, .request (createExpense (tokenString token) expenseData), .refetch,
          .alert "Expense added successfully!"])
  | .error err =>
    (s, [.consoleLog, .request (createExpense (tokenString token) expenseData),
         .consoleError, .consoleError,
         .alert ("Failed to add expense: " ++ errorDetail err)])

/-- The handler `Dashboard.handleDelete`.  `confirmed` is what
`window.confirm` returned, `response` the outcome of the awaited
`deleteExpense(token, expenseId)`. -/
def Dashboard.handleDelete (token : Option String) (expenseId : Int) (confirmed : Bool)
    (response : Except ApiError Unit) (s : DashboardState) : DashboardState × List Effect :=
  if confirmed then
    match response with
    | .ok _ =>
      (s, [.confirm "Are you sure you want to delete this expense?",
           .request (deleteExpense (tokenString token) expenseId), .refetch,
           .alert "Expense deleted successfully!"])
    | .error _ =>
      (s, [.confirm "Are you sure you want to delete this expense?",
           .request (deleteExpense (tokenString token) expenseId),
           .alert "Failed to delete expense", .consoleError])
  else (s, [.confirm "Are you sure you want to delete this expense?"])

/-- Requests among a list of effects, delayed ones included. -/
def requestsOf : List Effect → List Request
  | [] => []
  | .request r :: rest => r :: requestsOf rest
  | .delayed _ (.request r) :: rest => r :: requestsOf rest
  | _ :: rest => requestsOf rest

/-- An effect that logs the user out or navigates, at once or delayed. -/
def leavesSession : Effect → Bool
  | .logoutUser => true
  | .navigate _ => true
  | .delayed _ e => leavesSession e
  | _ => false


/-! ## Monthly aggregation in the arithmetic of the runtime

JavaScript numbers are IEEE doubles: `total += amount` rounds its result, so a
running total is in general not the exact sum of the amounts added to it.  The
definitions below repeat lines 33-66 of `MonthlyView.fetchMonthlyData` with
the arithmetic as a parameter; `aggregate` above is the same pass in exact
arithmetic (`aggregateWith_exact`). -/

/-- The arithmetic the totals are computed in.  `ν` is the type of a total
(for a JavaScript runtime: the doubles, infinities and `NaN` included),
`zero` is the literal `0`, `add t a` is the value of `t += a` for a running
total `t` and an amount `a`, and `sub` is the operator `-`.  No law is assumed
of these operations. -/
structure Arith (ν : Type) where
  zero : ν
  add : ν → ℚ → ν
  sub : ν → ν → ν

/-- Exact arithmetic on the rationals. -/
def exactArith : Arith ℚ :=
  { zero := 0, add := fun t a => t + a, sub := fun a b => a - b }

/-- Accumulator stored in `monthsMap` and element of `monthsArray`, with totals
in `ν`. -/
structure MonthGroupOf (ν : Type) where
  year : Option Int
  month : Option Int
  expenses : List Expense
  total_income : ν
  total_expenses : ν
  net_balance : ν
deriving DecidableEq, Repr

/-- Property lookup `monthsMap[monthKey]`. -/
def lookupKeyOf {ν : Type} (k : String) : List (String × MonthGroupOf ν) → Option (MonthGroupOf ν)
  | [] => none
  | (k1, g) :: rest => if k1 = k then some g else lookupKeyOf k rest

/-- In-place update of the object stored under `k`. -/
def modifyKeyOf {ν : Type} (k : String) (f : MonthGroupOf ν → MonthGroupOf ν) :
    List (String × MonthGroupOf ν) → List (String × MonthGroupOf ν)
  | [] => []
  | (k1, g) :: rest =>
    if k1 = k then (k1, f g) :: rest else (k1, g) :: modifyKeyOf k f rest

/-- The statements executed on the group once it exists (lines 50-56): push
the expense and add its amount to one of the two running totals. -/
def pushExpenseWith {ν : Type} (ar : Arith ν) (expense : Expense) (g : MonthGroupOf ν) :
    MonthGroupOf ν :=
  let g1 := { g with expenses := g.expenses ++ [expense] }
  if isIncome expense then { g1 with total_income := ar.add g1.total_income expense.amount }
  else { g1 with total_expenses := ar.add g1.total_expenses expense.amount }

/-- Body of the `forEach` callback (lines 35-57). -/
def addExpenseWith {ν : Type} (ar : Arith ν) (rt : Runtime)
    (monthsMap : List (String × MonthGroupOf ν)) (expense : Expense) :
    List (String × MonthGroupOf ν) :=
  let date := rt.dateParse expense.date
  let k := monthKey rt expense
  let monthsMap1 :=
    if (lookupKeyOf k monthsMap).isNone then
      monthsMap ++ [(k, { year := getFullYear rt date
                          month := (getMonth rt date).map (· + 1)
                          expenses := []
                          total_income := ar.zero
                          total_expenses := ar.zero
                          net_balance := ar.zero })]
    else monthsMap
  modifyKeyOf k (pushExpenseWith ar expense) monthsMap1

/-- The object `monthsMap` after the `forEach` loop. -/
def buildMonthsMapWith {ν : Type} (ar : Arith ν) (rt : Runtime) (allExpenses : List Expense) :
    List (String × MonthGroupOf ν) :=
  allExpenses.foldl (addExpenseWith ar rt) []

/-- The `map` callback (lines 60-62): recompute `net_balance`. -/
def withNetBalanceWith {ν : Type} (ar : Arith ν) (month : MonthGroupOf ν) : MonthGroupOf ν :=
  { month with net_balance := ar.sub month.total_income month.total_expenses }

/-- The comparator handed to `sort` (lines 63-66). -/
def compareMonthsOf {ν : Type} (a b : MonthGroupOf ν) : Option Int :=
  if numNe b.year a.year then numSub b.year a.year
  else numSub b.month a.month

/-- The order `sort` derives from the comparator; a `NaN` result counts as
`0`. -/
def monthsLeOf {ν : Type} (a b : MonthGroupOf ν) : Prop :=
  (compareMonthsOf a b).getD 0 ≤ 0

instance {ν : Type} : DecidableRel (monthsLeOf : MonthGroupOf ν → MonthGroupOf ν → Prop) :=
  fun a b => by unfold monthsLeOf; exact inferInstance

/-- The value handed to `setMonthlyData`, computed in the arithmetic `ar`. -/
def aggregateWith {ν : Type} (ar : Arith ν) (rt : Runtime) (allExpenses : List Expense) :
    List (MonthGroupOf ν) :=
  (((buildMonthsMapWith ar rt allExpenses).map Prod.snd).map (withNetBalanceWith ar)).insertionSort
    monthsLeOf

/-- The sum of the amounts of a list of expenses as the code forms it: starting
from `0` and adding one amount after the other, in list order, in the
arithmetic `ar`. -/
def sumWith {ν : Type} (ar : Arith ν) (l : List Expense) : ν :=
  l.foldl (fun t e => ar.add t e.amount) ar.zero

/-- A group with rational totals read as a `MonthGroup`. -/
def toExactGroup (g : MonthGroupOf ℚ) : MonthGroup :=
  { year := g.year, month := g.month, expenses := g.expenses,
    total_income := g.total_income, total_expenses := g.total_expenses,
    net_balance := g.net_balance }

/-- A toy arithmetic that is not exact: every total is rounded down to a whole
number after each addition. -/
def floorArith : Arith ℚ :=
  { zero := 0, add := fun t a => ((⌊t + a⌋ : Int) : ℚ), sub := fun a b => a - b }


/-- Both running totals of a group are the left-to-right sums over its own
list of expenses. -/
def totalsAgree {ν : Type} (ar : Arith ν) (g : MonthGroupOf ν) : Prop :=
  g.total_income = sumWith ar (g.expenses.filter (fun e => isIncome e)) ∧
  g.total_expenses = sumWith ar (g.expenses.filter (fun e => !isIncome e))

/-- Three records of January 2024 whose amounts are not whole numbers: incomes
of 1/2 and 3/4 and an expense of 5/2. -/
def roundingExample : List Expense :=
  [ { id := 1, amount := 1 / 2, description := "tip", date := "2024-01-15",
      category := some { id := 2, name := "Salary", type := "income" } },
    { id := 2, amount := 3 / 4, description := "refund", date := "2024-01-20",
      category := some { id := 2, name := "Salary", type := "income" } },
    { id := 3, amount := 5 / 2, description := "coffee", date := "2024-01-21",
      category := none } ]


/-! ## The fetch routines, statement by statement

Each fetch routine once more, now as the list of the calls it makes in the
order it makes them: calls of its state setters (`write`) and effects.  The
`try` block starts with `setLoading(true); setError('')` and the `finally`
block is `setLoading(false)`. -/

/-- One call made by a routine: a call of a state setter, or an effect. -/
inductive Step (ω : Type)
  | write (w : ω)
  | effect (e : Effect)
deriving DecidableEq, Repr

/-- The setter calls among the steps, in order. -/
def writesOf {ω : Type} : List (Step ω) → List ω
  | [] => []
  | .write w :: rest => w :: writesOf rest
  | .effect _ :: rest => writesOf rest

/-- The effects among the steps, in order. -/
def effectsOf {ω : Type} : List (Step ω) → List Effect
  | [] => []
  | .write _ :: rest => effectsOf rest
  | .effect e :: rest => e :: effectsOf rest

/-- The state setters `MonthlyView.fetchMonthlyData` calls. -/
inductive MonthlyViewWrite
  | setMonthlyData (data : List MonthGroup)
  | setLoading (value : Bool)
  | setError (message : String)
deriving DecidableEq, Repr

/-- A setter call applied to the local state of `MonthlyView`. -/
def MonthlyView.applyWrite (s : MonthlyViewState) : MonthlyViewWrite → MonthlyViewState
  | .setMonthlyData data => { s with monthlyData := data }
  | .setLoading value => { s with loading := value }
  | .setError message => { s with error := message }

/-- The calls of `MonthlyView.fetchMonthlyData` (lines 19-81) between the two
opening statements of the `try` block and the `finally` block. -/
def MonthlyView.fetchMonthlyDataBody (rt : Runtime) (token : Option String)
    (response : Except ApiError (List Expense)) : List (Step MonthlyViewWrite) :=
  if !truthy token then [.effect (.navigate "/login")]
  else
    match response with
    | .ok allExpenses =>
      [.effect (.request (getExpenses (tokenString token))),
       .write (.setMonthlyData (aggregate rt allExpenses))]
    | .error err =>
      if err.status = some 401 then
        [.effect (.request (getExpenses (tokenString token))),
         .effect .logoutUser, .effect (.navigate "/login"), .effect .consoleError]
      else
        [.effect (.request (getExpenses (tokenString token))),
         .write (.setError "Failed to load monthly data"), .effect .consoleError]

/-- All calls of `MonthlyView.fetchMonthlyData`, in order. -/
def MonthlyView.fetchMonthlyDataSteps (rt : Runtime) (token : Option String)
    (response : Except ApiError (List Expense)) : List (Step MonthlyViewWrite) :=
  [.write (.setLoading true), .write (.setError "")]
    ++ MonthlyView.fetchMonthlyDataBody rt token response
    ++ [.write (.setLoading false)]

/-- The state setters `Categories.fetchCategories` calls. -/
inductive CategoriesWrite
  | setCategories (data : List Category)
  | setLoading (value : Bool)
  | setError (message : String)
deriving DecidableEq, Repr

/-- A setter call applied to the local state of `Categories`. -/
def Categories.applyWrite (s : CategoriesState) : CategoriesWrite → CategoriesState
  | .setCategories data => { s with categories := data }
  | .setLoading value => { s with loading := value }
  | .setError message => { s with error := message }

/-- The calls of `Categories.fetchCategories` (lines 23-50) between the two
opening statements of the `try` block and the `finally` block. -/
def Categories.fetchCategoriesBody (token : Option String)
    (response : Except ApiError (List Category)) : List (Step CategoriesWrite) :=
  if !truthy token then
    [.write (.setError "Not authenticated. Please login again."),
     .effect (.navigate "/login")]
  else
    match response with
    | .ok data =>
      [.effect (.request (getCategories (tokenString token))), .write (.setCategories data)]
    | .error err =>
      if err.status = some 401 then
        [.effect (.request (getCategories (tokenString token))),
         .write (.setError "Session expired. Please login again."),
         .effect (.delayed 2000 .logoutUser), .effect (.delayed 2000 (.navigate "/login")),
         .effect .consoleError]
      else
        [.effect (.request (getCategories (tokenString token))),
         .write (.setError "Failed to load categories"), .effect .consoleError]

/-- All calls of `Categories.fetchCategories`, in order. -/
def Categories.fetchCategoriesSteps (token : Option String)
    (response : Except ApiError (List Category)) : List (Step CategoriesWrite) :=
  [.write (.setLoading true), .write (.setError "")]
    ++ Categories.fetchCategoriesBody token response
    ++ [.write (.setLoading false)]

/-- The state setters `Dashboard.fetchData` calls. -/
inductive DashboardWrite
  | setAnalytics (data : Analytics)
  | setExpenses (data : List Expense)
  | setCategories (data : List Category)
  | setLoading (value : Bool)
  | setError (message : String)
deriving DecidableEq, Repr

/-- A setter call applied to the local state of `Dashboard`. -/
def Dashboard.applyWrite (s : DashboardState) : DashboardWrite → DashboardState
  | .setAnalytics data => { s with analytics := some data }
  | .setExpenses data => { s with expenses := data }
  | .setCategories data => { s with categories := data }
  | .setLoading value => { s with loading := value }
  | .setError message => { s with error := message }

/-- The `catch` block of `Dashboard.fetchData`. -/
def Dashboard.fetchDataCatch : List (Step DashboardWrite) :=
  [.write (.setError "Failed to load data. Please try again."), .effect .consoleError]

/-- The calls of `Dashboard.fetchData` (lines 36-59) between the two opening
statements of the `try` block and the `finally` block. -/
def Dashboard.fetchDataBody (token : Option String)
    (analyticsResponse : Except ApiError Analytics)
    (expensesResponse : Except ApiError (List Expense))
    (categoriesResponse : Except ApiError (List Category)) : List (Step DashboardWrite) :=
  let t := tokenString token
  match analyticsResponse with
  | .error _ => .effect (.request (getDashboard t)) :: Dashboard.fetchDataCatch
  | .ok analyticsData =>
    [.effect (.request (getDashboard t)), .write (.setAnalytics analyticsData)] ++
    match expensesResponse with
    | .error _ => .effect (.request (getExpenses t)) :: Dashboard.fetchDataCatch
    | .ok expensesData =>
      [.effect (.request (getExpenses t)), .write (.setExpenses expensesData)] ++
      match categoriesResponse with
      | .error _ => .effect (.request (getCategories t)) :: Dashboard.fetchDataCatch
      | .ok categoriesData =>
        [.effect (.request (getCategories t)), .write (.setCategories categoriesData)]

/-- All calls of `Dashboard.fetchData`, in order. -/
def Dashboard.fetchDataSteps (token : Option String)
    (analyticsResponse : Except ApiError Analytics)
    (expensesResponse : Except ApiError (List Expense))
    (categoriesResponse : Except ApiError (List Category)) : List (Step DashboardWrite) :=
  [.write (.setLoading true), .write (.setError "")]
    ++ Dashboard.fetchDataBody token analyticsResponse expensesResponse categoriesResponse
    ++ [.write (.setLoading false)]


/-! ## Lemmas on the association list -/

theorem lookupKey_isNone_iff (k : String) (M : List (String × MonthGroup)) :
    (lookupKey k M).isNone = true ↔ k ∉ M.map Prod.fst := by
  induction M with
  | nil => simp [lookupKey]
  | cons kg rest ih =>
    obtain ⟨k1, g⟩ := kg
    by_cases h : k1 = k
    · simp [lookupKey, h]
    · have h2 : ¬ k = k1 := fun e => h e.symm
      simp [lookupKey, h, h2, ih]

theorem modifyKey_eq_map (k : String) (f : MonthGroup → MonthGroup)
    (M : List (String × MonthGroup)) (hnd : (M.map Prod.fst).Nodup) :
    modifyKey k f M = M.map (fun kg => if kg.1 = k then (kg.1, f kg.2) else kg) := by
  induction M with
  | nil => rfl
  | cons kg rest ih =>
    obtain ⟨k1, g⟩ := kg
    simp only [List.map_cons, List.nodup_cons] at hnd
    by_cases h : k1 = k
    · subst h
      have hrest : rest.map (fun kg => if kg.1 = k1 then (kg.1, f kg.2) else kg) = rest := by
        conv_rhs => rw [← List.map_id rest]
        apply List.map_congr_left
        intro kg hkg
        have : kg.1 ≠ k1 := fun e => hnd.1 (e ▸ List.mem_map_of_mem Prod.fst hkg)
        simp [this]
      simp [modifyKey, hrest]
    · simp [modifyKey, h, ih hnd.2]

theorem modifyKey_keys (k : String) (f : MonthGroup → MonthGroup)
    (M : List (String × MonthGroup)) :
    (modifyKey k f M).map Prod.fst = M.map Prod.fst := by
  induction M with
  | nil => rfl
  | cons kg rest ih =>
    obtain ⟨k1, g⟩ := kg
    by_cases h : k1 = k
    · simp [modifyKey, h]
    · simp [modifyKey, h, ih]

/-! ## The loop invariant of the grouping pass -/

theorem sumAmounts_append (l1 l2 : List Expense) :
    sumAmounts (l1 ++ l2) = sumAmounts l1 + sumAmounts l2 := by
  simp [sumAmounts]

theorem pushExpense_expenses (e : Expense) (g : MonthGroup) :
    (pushExpense e g).expenses = g.expenses ++ [e] := by
  unfold pushExpense; split <;> rfl

theorem pushExpense_year (e : Expense) (g : MonthGroup) :
    (pushExpense e g).year = g.year := by
  unfold pushExpense; split <;> rfl

theorem pushExpense_month (e : Expense) (g : MonthGroup) :
    (pushExpense e g).month = g.month := by
  unfold pushExpense; split <;> rfl

theorem pushExpense_income (e : Expense) (g : MonthGroup)
    (h : g.total_income = sumAmounts (g.expenses.filter (fun e => isIncome e))) :
    (pushExpense e g).total_income =
      sumAmounts ((pushExpense e g).expenses.filter (fun e => isIncome e)) := by
  rw [pushExpense_expenses, List.filter_append, sumAmounts_append, ← h]
  unfold pushExpense
  by_cases hi : isIncome e = true
  · simp [hi, sumAmounts]
  · simp [hi, sumAmounts]

theorem pushExpense_outgo (e : Expense) (g : MonthGroup)
    (h : g.total_expenses = sumAmounts (g.expenses.filter (fun e => !isIncome e))) :
    (pushExpense e g).total_expenses =
      sumAmounts ((pushExpense e g).expenses.filter (fun e => !isIncome e)) := by
  rw [pushExpense_expenses, List.filter_append, sumAmounts_append, ← h]
  unfold pushExpense
  by_cases hi : isIncome e = true
  · simp [hi, sumAmounts]
  · simp [hi, sumAmounts]

/-- Adding `e` to the one group stored under `k` adds `e` to the concatenation
of all groups. -/
theorem flatMap_modify_perm (k : String) (e : Expense) (M : List (String × MonthGroup))
    (hnd : (M.map Prod.fst).Nodup) (hk : k ∈ M.map Prod.fst) :
    ((M.map (fun kg => if kg.1 = k then (kg.1, pushExpense e kg.2) else kg)).flatMap
        (fun kg => kg.2.expenses)).Perm
      (M.flatMap (fun kg => kg.2.expenses) ++ [e]) := by
  induction M with
  | nil => simp at hk
  | cons kg rest ih =>
    obtain ⟨k1, g⟩ := kg
    simp only [List.map_cons, List.nodup_cons] at hnd
    by_cases h : k1 = k
    · subst h
      have hrest : rest.map (fun kg => if kg.1 = k1 then (kg.1, pushExpense e kg.2) else kg)
          = rest := by
        conv_rhs => rw [← List.map_id rest]
        apply List.map_congr_left
        intro kg hkg
        have : kg.1 ≠ k1 := fun e => hnd.1 (e ▸ List.mem_map_of_mem Prod.fst hkg)
        simp [this]
      simp only [List.map_cons, if_true, hrest, List.flatMap_cons, pushExpense_expenses]
      rw [List.append_assoc, List.append_assoc]
      exact List.Perm.append_left _ List.perm_append_comm
    · have hk2 : k ∈ rest.map Prod.fst := by
        simp only [List.map_cons, List.mem_cons] at hk
        rcases hk with hk | hk
        · exact absurd hk.symm h
        · exact hk
      simp only [List.map_cons, h, if_false, List.flatMap_cons, List.append_assoc]
      exact List.Perm.append_left _ (ih hnd.2 hk2)

theorem addExpense_eq (rt : Runtime) (M : List (String × MonthGroup)) (e : Expense)
    (hnd : (M.map Prod.fst).Nodup) :
    addExpense rt M e =
      (if monthKey rt e ∈ M.map Prod.fst then M else M ++ [(monthKey rt e, freshGroup rt e)]).map
        (fun kg => if kg.1 = monthKey rt e then (kg.1, pushExpense e kg.2) else kg) := by
  unfold addExpense
  by_cases hmem : monthKey rt e ∈ M.map Prod.fst
  · have hl : (lookupKey (monthKey rt e) M).isNone = false := by
      cases hb : (lookupKey (monthKey rt e) M).isNone with
      | false => rfl
      | true => exact absurd hmem ((lookupKey_isNone_iff _ _).1 hb)
    simp only [hl, if_pos hmem, Bool.false_eq_true, if_false]
    exact modifyKey_eq_map _ _ _ hnd
  · have hl : (lookupKey (monthKey rt e) M).isNone = true := (lookupKey_isNone_iff _ _).2 hmem
    simp only [hl, if_neg hmem, if_true]
    apply modifyKey_eq_map
    rw [List.map_append, List.nodup_append]
    refine ⟨hnd, by simp, ?_⟩
    intro a ha hb
    simp only [List.map_cons, List.map_nil, List.mem_singleton] at hb
    exact hmem (hb ▸ ha)

theorem MapInv.nil (rt : Runtime) : MapInv rt [] [] where
  nodup := by simp
  covers := by simp
  members := by simp
  income := by simp
  outgo := by simp
  origin := by simp
  perm := by simp

theorem MapInv.step {rt : Runtime} {es : List Expense} {M : List (String × MonthGroup)}
    (h : MapInv rt es M) (e : Expense) : MapInv rt (es ++ [e]) (addExpense rt M e) := by
  rw [addExpense_eq rt M e h.nodup]
  set k := monthKey rt e with hk
  set M1 := (if k ∈ M.map Prod.fst then M else M ++ [(k, freshGroup rt e)]) with hM1
  have hkeys1 : k ∈ M1.map Prod.fst := by
    by_cases hmem : k ∈ M.map Prod.fst
    · simp only [hM1, if_pos hmem]; exact hmem
    · simp [hM1, if_neg hmem]
  have hsub : ∀ x ∈ M.map Prod.fst, x ∈ M1.map Prod.fst := by
    intro x hx
    by_cases hmem : k ∈ M.map Prod.fst
    · simp only [hM1, if_pos hmem]; exact hx
    · simp only [hM1, if_neg hmem, List.map_append, List.mem_append]; exact Or.inl hx
  have hnd1 : (M1.map Prod.fst).Nodup := by
    by_cases hmem : k ∈ M.map Prod.fst
    · simp only [hM1, if_pos hmem]; exact h.nodup
    · simp only [hM1, if_neg hmem]
      rw [List.map_append, List.nodup_append]
      refine ⟨h.nodup, by simp, ?_⟩
      intro a ha hb
      simp only [List.map_cons, List.map_nil, List.mem_singleton] at hb
      exact hmem (hb ▸ ha)
  have hcase : ∀ kg ∈ M1, kg ∈ M ∨ (kg = (k, freshGroup rt e) ∧ k ∉ M.map Prod.fst) := by
    intro kg hkg
    by_cases hmem : k ∈ M.map Prod.fst
    · simp only [hM1, if_pos hmem] at hkg; exact Or.inl hkg
    · simp only [hM1, if_neg hmem, List.mem_append, List.mem_singleton] at hkg
      rcases hkg with hkg | hkg
      · exact Or.inl hkg
      · exact Or.inr ⟨hkg, hmem⟩
  have hflat : M1.flatMap (fun kg => kg.2.expenses) = M.flatMap (fun kg => kg.2.expenses) := by
    by_cases hmem : k ∈ M.map Prod.fst
    · simp only [hM1, if_pos hmem]
    · simp [hM1, if_neg hmem, freshGroup]
  have hempty : k ∉ M.map Prod.fst → es.filter (fun x => monthKey rt x = k) = [] := by
    intro hmem
    rw [List.filter_eq_nil_iff]
    intro x hx hxk
    have := h.covers x hx
    rw [of_decide_eq_true hxk] at this
    exact hmem this
  -- the properties of the entries of `M1`, before the push
  have hmembers1 : ∀ kg ∈ M1, kg.2.expenses = es.filter (fun x => monthKey rt x = kg.1) := by
    intro kg hkg
    rcases hcase kg hkg with hold | ⟨hnew, hmem⟩
    · exact h.members kg hold
    · subst hnew; simp [freshGroup, hempty hmem]
  have hincome1 : ∀ kg ∈ M1,
      kg.2.total_income = sumAmounts (kg.2.expenses.filter (fun e => isIncome e)) := by
    intro kg hkg
    rcases hcase kg hkg with hold | ⟨hnew, _⟩
    · exact h.income kg hold
    · subst hnew; simp [freshGroup, sumAmounts]
  have houtgo1 : ∀ kg ∈ M1,
      kg.2.total_expenses = sumAmounts (kg.2.expenses.filter (fun e => !isIncome e)) := by
    intro kg hkg
    rcases hcase kg hkg with hold | ⟨hnew, _⟩
    · exact h.outgo kg hold
    · subst hnew; simp [freshGroup, sumAmounts]
  have horigin1 : ∀ kg ∈ M1, ∃ x ∈ es ++ [e], monthKey rt x = kg.1 ∧
      kg.2.year = getFullYear rt (rt.dateParse x.date) ∧
      kg.2.month = (getMonth rt (rt.dateParse x.date)).map (· + 1) := by
    intro kg hkg
    rcases hcase kg hkg with hold | ⟨hnew, _⟩
    · obtain ⟨x, hx, hx2⟩ := h.origin kg hold
      exact ⟨x, List.mem_append_left _ hx, hx2⟩
    · subst hnew
      exact ⟨e, by simp, rfl, rfl, rfl⟩
  refine ⟨?_, ?_, ?_, ?_, ?_, ?_, ?_⟩
  · -- nodup
    have : (M1.map (fun kg => if kg.1 = k then (kg.1, pushExpense e kg.2) else kg)).map Prod.fst
        = M1.map Prod.fst := by
      rw [List.map_map]
      apply List.map_congr_left
      intro kg _
      by_cases hc : kg.1 = k <;> simp [hc]
    rw [this]; exact hnd1
  · -- covers
    have : (M1.map (fun kg => if kg.1 = k then (kg.1, pushExpense e kg.2) else kg)).map Prod.fst
        = M1.map Prod.fst := by
      rw [List.map_map]
      apply List.map_congr_left
      intro kg _
      by_cases hc : kg.1 = k <;> simp [hc]
    rw [this]
    intro x hx
    rcases List.mem_append.1 hx with hx | hx
    · exact hsub _ (h.covers x hx)
    · rw [List.mem_singleton.1 hx]; exact hkeys1
  · -- members
    intro kg' hkg'
    obtain ⟨kg, hkg, rfl⟩ := List.mem_map.1 hkg'
    by_cases hc : kg.1 = k
    · simp only [hc, if_true, pushExpense_expenses, List.filter_append]
      rw [hmembers1 kg hkg, hc]
      simp [hk]
    · simp only [hc, if_false, List.filter_append]
      rw [hmembers1 kg hkg]
      have : ¬ monthKey rt e = kg.1 := fun h2 => hc (h2 ▸ hk.symm ▸ rfl)
      simp [this]
  · -- income
    intro kg' hkg'
    obtain ⟨kg, hkg, rfl⟩ := List.mem_map.1 hkg'
    by_cases hc : kg.1 = k
    · simp only [hc, if_true]
      exact pushExpense_income e kg.2 (hincome1 kg hkg)
    · simp only [hc, if_false]
      exact hincome1 kg hkg
  · -- outgo
    intro kg' hkg'
    obtain ⟨kg, hkg, rfl⟩ := List.mem_map.1 hkg'
    by_cases hc : kg.1 = k
    · simp only [hc, if_true]
      exact pushExpense_outgo e kg.2 (houtgo1 kg hkg)
    · simp only [hc, if_false]
      exact houtgo1 kg hkg
  · -- origin
    intro kg' hkg'
    obtain ⟨kg, hkg, rfl⟩ := List.mem_map.1 hkg'
    obtain ⟨x, hx, hx1, hx2, hx3⟩ := horigin1 kg hkg
    by_cases hc : kg.1 = k
    · simp only [hc, if_true, pushExpense_year, pushExpense_month]
      exact ⟨x, hx, hx1.trans hc, hx2, hx3⟩
    · simp only [hc, if_false]
      exact ⟨x, hx, hx1, hx2, hx3⟩
  · -- perm
    refine (flatMap_modify_perm k e M1 hnd1 hkeys1).trans ?_
    rw [hflat]
    exact List.Perm.append_right _ h.perm

theorem buildMonthsMap_inv (rt : Runtime) (es : List Expense) :
    MapInv rt es (buildMonthsMap rt es) := by
  unfold buildMonthsMap
  induction es using List.reverseRecOn with
  | nil => exact MapInv.nil rt
  | append_singleton es e ih =>
    rw [List.foldl_append]
    exact MapInv.step ih e

/-! ## Properties of the aggregated array -/

theorem mem_aggregate {rt : Runtime} {es : List Expense} {g : MonthGroup} :
    g ∈ aggregate rt es ↔ ∃ kg ∈ buildMonthsMap rt es, withNetBalance kg.2 = g := by
  unfold aggregate sortMonths
  rw [(List.perm_insertionSort monthsLe _).mem_iff]
  simp only [List.mem_map]
  constructor
  · rintro ⟨g1, ⟨kg, hkg, rfl⟩, rfl⟩
    exact ⟨kg, hkg, rfl⟩
  · rintro ⟨kg, hkg, rfl⟩
    exact ⟨kg.2, ⟨kg, hkg, rfl⟩, rfl⟩

theorem aggregate_perm (rt : Runtime) (es : List Expense) :
    (aggregate rt es).Perm ((buildMonthsMap rt es).map (fun kg => withNetBalance kg.2)) := by
  unfold aggregate sortMonths
  rw [List.map_map]
  exact List.perm_insertionSort monthsLe _

theorem groupKey_withNetBalance (g : MonthGroup) : groupKey (withNetBalance g) = groupKey g := rfl

theorem groupKey_of_inv {rt : Runtime} {es : List Expense} {M : List (String × MonthGroup)}
    (h : MapInv rt es M) : ∀ kg ∈ M, groupKey kg.2 = kg.1 := by
  intro kg hkg
  obtain ⟨x, _, hx1, hx2, hx3⟩ := h.origin kg hkg
  rw [← hx1]
  unfold groupKey monthKey
  rw [hx2, hx3]

/-- C1. Every group produced by the monthly aggregation has `net_balance`
equal to `total_income - total_expenses`, whatever the list of expenses and the
zone of the runtime. -/
theorem aggregate_net_balance (rt : Runtime) (allExpenses : List Expense) :
    ∀ g ∈ aggregate rt allExpenses, g.net_balance = g.total_income - g.total_expenses := by
  intro g hg
  obtain ⟨kg, _, rfl⟩ := mem_aggregate.1 hg
  rfl

/-- Witness for C1: the single group of a one-expense list. -/
theorem aggregate_net_balance_witness :
    (⟨some 2024, some 3, [⟨7, 12, "rent", "2024-03-09", none⟩], 0, 12, -12⟩ : MonthGroup) ∈
        aggregate (ecmaRuntime 0) [⟨7, 12, "rent", "2024-03-09", none⟩] ∧
      (-12 : ℚ) = 0 - 12 :=
  ⟨by decide!,
   aggregate_net_balance (ecmaRuntime 0) [⟨7, 12, "rent", "2024-03-09", none⟩]
     ⟨some 2024, some 3, [⟨7, 12, "rent", "2024-03-09", none⟩], 0, 12, -12⟩ (by decide!)⟩


theorem aggregate_keys_nodup (rt : Runtime) (es : List Expense) :
    ((aggregate rt es).map groupKey).Nodup := by
  have h := buildMonthsMap_inv rt es
  have hp := (aggregate_perm rt es).map groupKey
  rw [hp.nodup_iff, List.map_map]
  have : (buildMonthsMap rt es).map (groupKey ∘ fun kg => withNetBalance kg.2)
      = (buildMonthsMap rt es).map Prod.fst := by
    apply List.map_congr_left
    intro kg hkg
    simp only [Function.comp, groupKey_withNetBalance]
    exact groupKey_of_inv h kg hkg
  rw [this]
  exact h.nodup

theorem aggregate_members (rt : Runtime) (es : List Expense) :
    ∀ g ∈ aggregate rt es, g.expenses = es.filter (fun e => monthKey rt e = groupKey g) := by
  intro g hg
  have h := buildMonthsMap_inv rt es
  obtain ⟨kg, hkg, rfl⟩ := mem_aggregate.1 hg
  rw [groupKey_withNetBalance, groupKey_of_inv h kg hkg]
  exact h.members kg hkg

theorem aggregate_covers (rt : Runtime) (es : List Expense) :
    ∀ e ∈ es, ∃ g ∈ aggregate rt es, groupKey g = monthKey rt e := by
  intro e he
  have h := buildMonthsMap_inv rt es
  obtain ⟨kg, hkg, hk⟩ := List.mem_map.1 (h.covers e he)
  refine ⟨withNetBalance kg.2, mem_aggregate.2 ⟨kg, hkg, rfl⟩, ?_⟩
  rw [groupKey_withNetBalance, groupKey_of_inv h kg hkg]
  exact hk

theorem aggregate_flat_perm (rt : Runtime) (es : List Expense) :
    ((aggregate rt es).flatMap (fun g => g.expenses)).Perm es := by
  have h := buildMonthsMap_inv rt es
  refine ((aggregate_perm rt es).flatMap_right _).trans ?_
  have : ((buildMonthsMap rt es).map (fun kg => withNetBalance kg.2)).flatMap (fun g => g.expenses)
      = (buildMonthsMap rt es).flatMap (fun kg => kg.2.expenses) := by
    rw [List.flatMap_map]
    rfl
  rw [this]
  exact h.perm

/-- Two members of a list whose images under `f` are pairwise distinct are
equal as soon as their images agree. -/
theorem eq_of_nodup_map {α β : Type} (f : α → β) (l : List α) (h : (l.map f).Nodup)
    {a b : α} (ha : a ∈ l) (hb : b ∈ l) (hab : f a = f b) : a = b :=
  List.inj_on_of_nodup_map h ha hb hab

/-- C3. Each group's `expenses` list is the input filtered by that group's
month key (so it is a subsequence of the input in input order); the month keys
of the groups are pairwise distinct; every input expense lies in exactly one
group; and the concatenation of all groups' lists is a rearrangement of the
input, so nothing is dropped or duplicated. -/
theorem aggregate_partitions_input (rt : Runtime) (allExpenses : List Expense) :
    (∀ g ∈ aggregate rt allExpenses,
        g.expenses = allExpenses.filter (fun e => monthKey rt e = groupKey g) ∧
        g.expenses.Sublist allExpenses) ∧
    ((aggregate rt allExpenses).map groupKey).Nodup ∧
    (∀ e ∈ allExpenses, ∃! g, g ∈ aggregate rt allExpenses ∧ e ∈ g.expenses) ∧
    ((aggregate rt allExpenses).flatMap (fun g => g.expenses)).Perm allExpenses := by
  refine ⟨?_, aggregate_keys_nodup rt allExpenses, ?_, aggregate_flat_perm rt allExpenses⟩
  · intro g hg
    have hm := aggregate_members rt allExpenses g hg
    exact ⟨hm, hm ▸ List.filter_sublist _⟩
  · intro e he
    obtain ⟨g, hg, hk⟩ := aggregate_covers rt allExpenses e he
    refine ⟨g, ⟨hg, ?_⟩, ?_⟩
    · rw [aggregate_members rt allExpenses g hg, List.mem_filter]
      exact ⟨he, decide_eq_true hk.symm⟩
    · rintro g2 ⟨hg2, he2⟩
      rw [aggregate_members rt allExpenses g2 hg2, List.mem_filter] at he2
      have hk2 : monthKey rt e = groupKey g2 := of_decide_eq_true he2.2
      exact eq_of_nodup_map groupKey _ (aggregate_keys_nodup rt allExpenses) hg2 hg
        (hk2.symm.trans hk.symm)

theorem hasIncomeCategory_iff (e : Expense) : hasIncomeCategory e ↔ isIncome e = true := by
  unfold hasIncomeCategory isIncome
  cases e.category with
  | none => simp
  | some c => simp

/-- With amounts added exactly, `total_income` of every produced group is the
exact sum of the amounts of the group's expenses whose category exists and has
type `income`, and `total_expenses` the exact sum of the amounts of all its
other expenses. -/
theorem aggregate_totals (rt : Runtime) (allExpenses : List Expense) :
    ∀ g ∈ aggregate rt allExpenses,
      g.total_income = sumAmounts (g.expenses.filter (fun e => decide (hasIncomeCategory e))) ∧
      g.total_expenses =
        sumAmounts (g.expenses.filter (fun e => !decide (hasIncomeCategory e))) := by
  intro g hg
  have h := buildMonthsMap_inv rt allExpenses
  obtain ⟨kg, hkg, rfl⟩ := mem_aggregate.1 hg
  have hd : ∀ e : Expense, decide (hasIncomeCategory e) = isIncome e := by
    intro e
    by_cases hi : isIncome e = true
    · rw [hi]; exact decide_eq_true ((hasIncomeCategory_iff e).2 hi)
    · rw [Bool.not_eq_true] at hi
      rw [hi]; exact decide_eq_false (fun hc => by
        have := (hasIncomeCategory_iff e).1 hc
        rw [hi] at this; exact Bool.false_ne_true this)
  simp only [hd]
  exact ⟨h.income kg hkg, h.outgo kg hkg⟩


/-! ## Sortedness of the aggregated array -/

theorem sorted_orderedInsert_of {α : Type} (r : α → α → Prop) [DecidableRel r] (P : α → Prop)
    (htot : ∀ a b, P a → P b → r a b ∨ r b a)
    (htr : ∀ a b c, P a → P b → P c → r a b → r b c → r a c)
    (a : α) (ha : P a) :
    ∀ l : List α, (∀ x ∈ l, P x) → l.Sorted r → (l.orderedInsert r a).Sorted r := by
  intro l
  induction l with
  | nil => intro _ _; simp
  | cons b l ih =>
    intro hP hs
    have hb : P b := hP b (List.mem_cons_self _ _)
    have hPl : ∀ x ∈ l, P x := fun x hx => hP x (List.mem_cons_of_mem _ hx)
    rw [List.sorted_cons] at hs
    by_cases hab : r a b
    · rw [List.orderedInsert, if_pos hab, List.sorted_cons]
      refine ⟨?_, List.sorted_cons.2 hs⟩
      intro c hc
      rcases List.mem_cons.1 hc with hc | hc
      · rw [hc]; exact hab
      · exact htr a b c ha hb (hPl c hc) hab (hs.1 c hc)
    · rw [List.orderedInsert, if_neg hab, List.sorted_cons]
      refine ⟨?_, ih hPl hs.2⟩
      intro c hc
      rcases (List.mem_orderedInsert r).1 hc with hc | hc
      · rw [hc]
        rcases htot a b ha hb with h1 | h1
        · exact absurd h1 hab
        · exact h1
      · exact hs.1 c hc

theorem sorted_insertionSort_of {α : Type} (r : α → α → Prop) [DecidableRel r] (P : α → Prop)
    (htot : ∀ a b, P a → P b → r a b ∨ r b a)
    (htr : ∀ a b c, P a → P b → P c → r a b → r b c → r a c) :
    ∀ l : List α, (∀ x ∈ l, P x) → (l.insertionSort r).Sorted r := by
  intro l
  induction l with
  | nil => intro _; simp
  | cons a l ih =>
    intro hP
    have hPl : ∀ x ∈ l, P x := fun x hx => hP x (List.mem_cons_of_mem _ hx)
    rw [List.insertionSort]
    apply sorted_orderedInsert_of r P htot htr a (hP a (List.mem_cons_self _ _))
    · intro x hx
      exact hPl x ((List.perm_insertionSort r l).mem_iff.1 hx)
    · exact ih hPl

theorem monthsLe_iff {a b : MonthGroup} {ya ma yb mb : Int}
    (h1 : a.year = some ya) (h2 : a.month = some ma)
    (h3 : b.year = some yb) (h4 : b.month = some mb) :
    monthsLe a b ↔ yb < ya ∨ (yb = ya ∧ mb ≤ ma) := by
  unfold monthsLe compareMonths
  rw [h1, h2, h3, h4]
  by_cases hy : yb = ya
  · simp [numNe, numSub, hy]
  · simp only [numNe, numSub, ne_eq, hy, not_false_eq_true, decide_True, if_true,
      Option.getD_some, false_and, or_false]
    omega

theorem hasNumericMonth_iff (g : MonthGroup) :
    hasNumericMonth g ↔ ∃ y m, g.year = some y ∧ g.month = some m := by
  unfold hasNumericMonth
  cases g.year <;> cases g.month <;> simp

theorem monthsLe_total (a b : MonthGroup) (ha : hasNumericMonth a) (hb : hasNumericMonth b) :
    monthsLe a b ∨ monthsLe b a := by
  obtain ⟨ya, ma, h1, h2⟩ := (hasNumericMonth_iff a).1 ha
  obtain ⟨yb, mb, h3, h4⟩ := (hasNumericMonth_iff b).1 hb
  rw [monthsLe_iff h1 h2 h3 h4, monthsLe_iff h3 h4 h1 h2]
  omega

theorem monthsLe_trans (a b c : MonthGroup) (ha : hasNumericMonth a) (hb : hasNumericMonth b)
    (hc : hasNumericMonth c) (hab : monthsLe a b) (hbc : monthsLe b c) : monthsLe a c := by
  obtain ⟨ya, ma, h1, h2⟩ := (hasNumericMonth_iff a).1 ha
  obtain ⟨yb, mb, h3, h4⟩ := (hasNumericMonth_iff b).1 hb
  obtain ⟨yc, mc, h5, h6⟩ := (hasNumericMonth_iff c).1 hc
  rw [monthsLe_iff h1 h2 h3 h4] at hab
  rw [monthsLe_iff h3 h4 h5 h6] at hbc
  rw [monthsLe_iff h1 h2 h5 h6]
  omega

theorem strictlyAfter_of_le_of_ne {a b : MonthGroup} (ha : hasNumericMonth a)
    (hb : hasNumericMonth b) (hle : monthsLe a b)
    (hne : (a.year, a.month) ≠ (b.year, b.month)) : strictlyAfter a b := by
  obtain ⟨ya, ma, h1, h2⟩ := (hasNumericMonth_iff a).1 ha
  obtain ⟨yb, mb, h3, h4⟩ := (hasNumericMonth_iff b).1 hb
  rw [monthsLe_iff h1 h2 h3 h4] at hle
  unfold strictlyAfter
  rw [h1, h2, h3, h4] at hne ⊢
  simp only [ne_eq, Prod.mk.injEq, Option.some.injEq, not_and] at hne
  show yb < ya ∨ (yb = ya ∧ mb < ma)
  rcases hle with h | ⟨h, h'⟩
  · exact Or.inl h
  · refine Or.inr ⟨h, lt_of_le_of_ne h' ?_⟩
    intro hm
    exact hne h.symm hm.symm

theorem aggregate_numeric (rt : Runtime) (es : List Expense)
    (hvalid : ∀ e ∈ es, (rt.dateParse e.date).isSome = true) :
    ∀ g ∈ aggregate rt es, hasNumericMonth g := by
  intro g hg
  have h := buildMonthsMap_inv rt es
  obtain ⟨kg, hkg, rfl⟩ := mem_aggregate.1 hg
  obtain ⟨x, hx, _, hx2, hx3⟩ := h.origin kg hkg
  have hv := hvalid x hx
  unfold hasNumericMonth
  show kg.2.year.isSome = true ∧ kg.2.month.isSome = true
  rw [hx2, hx3]
  unfold getFullYear getMonth
  cases hd : rt.dateParse x.date with
  | none => rw [hd] at hv; exact absurd hv (by simp)
  | some t => simp

theorem aggregate_year_month_nodup (rt : Runtime) (es : List Expense) :
    ((aggregate rt es).map (fun g => (g.year, g.month))).Nodup := by
  have h := aggregate_keys_nodup rt es
  have : (aggregate rt es).map groupKey =
      ((aggregate rt es).map (fun g => (g.year, g.month))).map
        (fun ym => numToString ym.1 ++ "-" ++ padStart2 (numToString ym.2)) := by
    rw [List.map_map]; rfl
  rw [this] at h
  exact h.of_map _

/-- C2. When every expense has a valid date, the groups produced by the
monthly aggregation are strictly descending in the lexicographic order on
(year, month), and no two groups carry the same (year, month) pair. -/
theorem aggregate_strictly_descending (rt : Runtime) (allExpenses : List Expense)
    (hvalid : ∀ e ∈ allExpenses, (rt.dateParse e.date).isSome = true) :
    (aggregate rt allExpenses).Pairwise strictlyAfter ∧
    ((aggregate rt allExpenses).map (fun g => (g.year, g.month))).Nodup := by
  have hnum := aggregate_numeric rt allExpenses hvalid
  have hnd := aggregate_year_month_nodup rt allExpenses
  refine ⟨?_, hnd⟩
  have hsorted : (aggregate rt allExpenses).Pairwise monthsLe := by
    unfold aggregate sortMonths
    apply sorted_insertionSort_of monthsLe hasNumericMonth monthsLe_total monthsLe_trans
    intro x hx
    apply hnum x
    unfold aggregate sortMonths
    exact (List.perm_insertionSort monthsLe _).mem_iff.2 hx
  have hne : (aggregate rt allExpenses).Pairwise
      (fun a b => (a.year, a.month) ≠ (b.year, b.month)) := by
    have := hnd
    unfold List.Nodup at this
    rwa [List.pairwise_map] at this
  refine (hsorted.and hne).imp_of_mem ?_
  intro a b ha hb hab
  exact strictlyAfter_of_le_of_ne (hnum a ha) (hnum b hb) hab.1 hab.2


/-- Witness for C2: three expenses over two months. -/
theorem aggregate_strictly_descending_witness :
    (∀ e ∈ specExample, ((ecmaRuntime 0).dateParse e.date).isSome = true) ∧
    ((aggregate (ecmaRuntime 0) specExample).Pairwise strictlyAfter ∧
      ((aggregate (ecmaRuntime 0) specExample).map (fun g => (g.year, g.month))).Nodup) :=
  ⟨by decide!, aggregate_strictly_descending (ecmaRuntime 0) specExample (by decide!)⟩

/-- The exact totals of a month holding one income and one expense record. -/
theorem aggregate_totals_witness :
    (⟨some 2024, some 1, specExample.take 2, 200, 50, 150⟩ : MonthGroup) ∈
        aggregate (ecmaRuntime 0) (specExample.take 2) ∧
      ((200 : ℚ) = sumAmounts ((specExample.take 2).filter
          (fun e => decide (hasIncomeCategory e))) ∧
       (50 : ℚ) = sumAmounts ((specExample.take 2).filter
          (fun e => !decide (hasIncomeCategory e)))) :=
  ⟨by decide!,
   aggregate_totals (ecmaRuntime 0) (specExample.take 2)
     ⟨some 2024, some 1, specExample.take 2, 200, 50, 150⟩ (by decide!)⟩


/-! ## The calendar arithmetic of the `Date` built-ins -/

/-- Year of era recovered from day of era. -/
theorem yearOfEra_of_dayOfEra (yoe doy doe : Int) (h0 : 0 ≤ yoe) (h1 : yoe ≤ 399) (h2 : 0 ≤ doy)
    (h3 : doy ≤ 364 ∨ (doy = 365 ∧ (yoe + 1) % 4 = 0 ∧
      ((yoe + 1) % 100 ≠ 0 ∨ (yoe + 1) % 400 = 0)))
    (hdoe : doe = yoe * 365 + yoe / 4 - yoe / 100 + doy) :
    (doe - doe / 1460 + doe / 36524 - doe / 146096) / 365 = yoe ∧ 0 ≤ doe ∧ doe ≤ 146096 := by
  have hbound : doy ≤ 364 ∨ (doy = 365 ∧ yoe % 4 = 3 ∧ (yoe % 100 ≠ 99 ∨ yoe = 399)) := by
    rcases h3 with h | ⟨h, h4, h5⟩
    · exact Or.inl h
    · refine Or.inr ⟨h, by omega, ?_⟩
      rcases h5 with h5 | h5
      · left; omega
      · right; omega
  have hc : yoe / 100 = 0 ∨ yoe / 100 = 1 ∨ yoe / 100 = 2 ∨ yoe / 100 = 3 := by omega
  rcases hc with hc | hc | hc | hc
  · have e1 : doe / 36524 = 0 := by omega
    have e2 : doe / 146096 = 0 := by omega
    omega
  · have e1 : doe / 36524 = 1 := by omega
    have e2 : doe / 146096 = 0 := by omega
    omega
  · have e1 : doe / 36524 = 2 := by omega
    have e2 : doe / 146096 = 0 := by omega
    omega
  · have e2 : doe / 146096 = 0 ∨ (doe = 146096 ∧ yoe = 399 ∧ doy = 365) := by omega
    rcases e2 with e2 | ⟨e2, e3, e4⟩
    · have e1 : doe / 36524 = 3 := by omega
      omega
    · subst e3 e4
      omega

/-- Shifted month recovered from day of the March-based year. -/
theorem shiftedMonth_of_dayOfYear (mp d : Int) (h0 : 0 ≤ mp) (h1 : mp ≤ 11) (h2 : 1 ≤ d)
    (h3 : d ≤ (153 * (mp + 1) + 2) / 5 - (153 * mp + 2) / 5) :
    (5 * ((153 * mp + 2) / 5 + d - 1) + 2) / 153 = mp := by
  interval_cases mp <;> omega

theorem civilFromDays_eq (z era doe yoe doy mp : Int)
    (h1 : z + 719468 = era * 146097 + doe) (h2 : 0 ≤ doe) (h2' : doe ≤ 146096)
    (h3 : (doe - doe / 1460 + doe / 36524 - doe / 146096) / 365 = yoe)
    (h4 : doe - (365 * yoe + yoe / 4 - yoe / 100) = doy)
    (h5 : (5 * doy + 2) / 153 = mp) :
    civilFromDays z =
      (if (if mp < 10 then mp + 3 else mp - 9) ≤ 2 then yoe + era * 400 + 1 else yoe + era * 400,
       if mp < 10 then mp + 3 else mp - 9,
       doy - (153 * mp + 2) / 5 + 1) := by
  have hz : (z + 719468) / 146097 = era := by omega
  have hdoe : z + 719468 - era * 146097 = doe := by omega
  simp only [civilFromDays, hz, hdoe, h3, h4, h5]

/-- The two calendar conversions are inverse on every existing calendar day,
in every year. -/
theorem civilFromDays_daysFromCivil (y m d : Int) (hm1 : 1 ≤ m) (hm2 : m ≤ 12)
    (hd1 : 1 ≤ d) (hd2 : d ≤ daysInMonth y m) :
    civilFromDays (daysFromCivil y m d) = (y, m, d) := by
  obtain ⟨y1, hy1⟩ : ∃ y1 : Int, y1 = if m ≤ 2 then y - 1 else y := ⟨_, rfl⟩
  obtain ⟨mp, hmp⟩ : ∃ mp : Int, mp = if m > 2 then m - 3 else m + 9 := ⟨_, rfl⟩
  obtain ⟨era, hera⟩ : ∃ era : Int, era = y1 / 400 := ⟨_, rfl⟩
  obtain ⟨yoe, hyoe⟩ : ∃ yoe : Int, yoe = y1 - era * 400 := ⟨_, rfl⟩
  obtain ⟨doy, hdoy⟩ : ∃ doy : Int, doy = (153 * mp + 2) / 5 + d - 1 := ⟨_, rfl⟩
  obtain ⟨doe, hdoe⟩ : ∃ doe : Int, doe = yoe * 365 + yoe / 4 - yoe / 100 + doy := ⟨_, rfl⟩
  have hdfc : daysFromCivil y m d = era * 146097 + doe - 719468 := by
    simp only [daysFromCivil, ← hy1, ← hmp, ← hera, ← hyoe, ← hdoy, ← hdoe]
  have hmp0 : 0 ≤ mp := by rw [hmp]; split <;> omega
  have hmp1 : mp ≤ 11 := by rw [hmp]; split <;> omega
  have hyoe0 : 0 ≤ yoe := by omega
  have hyoe1 : yoe ≤ 399 := by omega
  have hlen : (mp ≤ 10 ∧ d ≤ (153 * (mp + 1) + 2) / 5 - (153 * mp + 2) / 5) ∨
      (mp = 11 ∧ d ≤ 28) ∨ (mp = 11 ∧ d = 29 ∧ isLeapYear y = true) := by
    unfold daysInMonth at hd2
    by_cases h2 : m = 2
    · have : mp = 11 := by rw [hmp, h2]; rfl
      rw [if_pos h2] at hd2
      by_cases hl : isLeapYear y = true
      · rw [if_pos hl] at hd2
        by_cases hd29 : d = 29
        · exact Or.inr (Or.inr ⟨this, hd29, hl⟩)
        · exact Or.inr (Or.inl ⟨this, by omega⟩)
      · rw [if_neg hl] at hd2
        exact Or.inr (Or.inl ⟨this, by omega⟩)
    · rw [if_neg h2] at hd2
      left
      split at hd2
      · rename_i h4
        have : mp = 1 ∨ mp = 3 ∨ mp = 6 ∨ mp = 8 := by rw [hmp]; split <;> omega
        rcases this with h | h | h | h <;> rw [h] <;> omega
      · rename_i h4
        have : mp = 0 ∨ mp = 2 ∨ mp = 4 ∨ mp = 5 ∨ mp = 7 ∨ mp = 9 ∨ mp = 10 := by
          rw [hmp]; split <;> omega
        rcases this with h | h | h | h | h | h | h <;> rw [h] <;> omega
  have hm_of_mp : (if mp < 10 then mp + 3 else mp - 9) = m := by
    rw [hmp]; split <;> split <;> omega
  have hy_of : (if m ≤ 2 then yoe + era * 400 + 1 else yoe + era * 400) = y := by
    rw [hyoe, hy1]; split <;> omega
  have hd5 : d ≤ (153 * (mp + 1) + 2) / 5 - (153 * mp + 2) / 5 := by
    rcases hlen with h | h | h
    · exact h.2
    · rw [h.1]; omega
    · rw [h.1]; omega
  have hdoy0 : 0 ≤ doy := by omega
  have hdoy1 : doy ≤ 364 ∨ (doy = 365 ∧ (yoe + 1) % 4 = 0 ∧
      ((yoe + 1) % 100 ≠ 0 ∨ (yoe + 1) % 400 = 0)) := by
    rcases hlen with h | h | h
    · left; omega
    · left; rw [hdoy, h.1]; omega
    · right
      have hm2 : m = 2 := by
        have := h.1; rw [hmp] at this; split at this <;> omega
      have hleap := h.2.2
      unfold isLeapYear at hleap
      simp only [Bool.and_eq_true, Bool.or_eq_true, decide_eq_true_eq, ne_eq] at hleap
      have hy1' : y1 = y - 1 := by rw [hy1, if_pos (by omega)]
      refine ⟨by rw [hdoy, h.1, h.2.1]; rfl, by omega, ?_⟩
      rcases hleap.2 with h5 | h5
      · left; omega
      · right; omega
  obtain ⟨hy3, hdoe0, hdoe1⟩ := yearOfEra_of_dayOfEra yoe doy doe hyoe0 hyoe1 hdoy0 hdoy1 hdoe
  have h5 : (5 * doy + 2) / 153 = mp := by
    rw [hdoy]; exact shiftedMonth_of_dayOfYear mp d hmp0 hmp1 hd1 hd5
  rw [civilFromDays_eq (daysFromCivil y m d) era doe yoe doy mp (by rw [hdfc]; ring)
    hdoe0 hdoe1 hy3 (by omega) h5, hm_of_mp, hy_of]
  have : doy - (153 * mp + 2) / 5 + 1 = d := by omega
  rw [this]

theorem parseIsoDate_valid {s : String} {y m d : Int} (h : parseIsoDate s = some (y, m, d)) :
    1 ≤ m ∧ m ≤ 12 ∧ 1 ≤ d ∧ d ≤ daysInMonth y m := by
  unfold parseIsoDate at h
  split at h
  · split at h
    · simp only at h
      split at h
      · rename_i hv
        simp only [Option.some.injEq, Prod.mk.injEq] at h
        obtain ⟨rfl, rfl, rfl⟩ := h
        exact hv
      · cases h
    · cases h
  · cases h

/-- The day a time value at midnight UTC falls on is unchanged by a local
offset of zero up to (excluding) 24 hours east. -/
theorem localTime_day_of_east (tz k : Int) (h0 : 0 ≤ tz) (h1 : tz < 1440) :
    localTime (ecmaRuntime tz) (k * msPerDay) / msPerDay = k := by
  unfold localTime ecmaRuntime msPerDay
  simp only
  omega

theorem dateParse_eq (s : String) :
    dateParse s = none ∨ ∃ y m d, parseIsoDate s = some (y, m, d) ∧
      dateParse s = some (daysFromCivil y m d * msPerDay) := by
  unfold dateParse
  cases h : parseIsoDate s with
  | none => left; rfl
  | some ymd =>
    obtain ⟨y, m, d⟩ := ymd
    right
    exact ⟨y, m, d, rfl, rfl⟩

theorem getFullYear_east (tz : Int) (h0 : 0 ≤ tz) (h1 : tz < 1440) (s : String) :
    getFullYear (ecmaRuntime tz) (dateParse s) = getFullYear (ecmaRuntime 0) (dateParse s) := by
  rcases dateParse_eq s with h | ⟨y, m, d, _, h⟩
  · rw [h]; rfl
  · rw [h]
    simp only [getFullYear, Option.map_some']
    rw [localTime_day_of_east tz _ h0 h1, localTime_day_of_east 0 _ le_rfl (by decide)]

theorem getMonth_east (tz : Int) (h0 : 0 ≤ tz) (h1 : tz < 1440) (s : String) :
    getMonth (ecmaRuntime tz) (dateParse s) = getMonth (ecmaRuntime 0) (dateParse s) := by
  rcases dateParse_eq s with h | ⟨y, m, d, _, h⟩
  · rw [h]; rfl
  · rw [h]
    simp only [getMonth, Option.map_some']
    rw [localTime_day_of_east tz _ h0 h1, localTime_day_of_east 0 _ le_rfl (by decide)]

theorem addExpense_east (tz : Int) (h0 : 0 ≤ tz) (h1 : tz < 1440)
    (M : List (String × MonthGroup)) (e : Expense) :
    addExpense (ecmaRuntime tz) M e = addExpense (ecmaRuntime 0) M e := by
  have hp : ∀ z : Int, (ecmaRuntime z).dateParse = dateParse := fun _ => rfl
  unfold addExpense monthKey
  simp only [hp, getFullYear_east tz h0 h1, getMonth_east tz h0 h1]

/-- In a runtime whose zone is at or east of UTC (offset below 24 hours) the
monthly aggregation gives the same result as on UTC. -/
theorem aggregate_east (tz : Int) (h0 : 0 ≤ tz) (h1 : tz < 1440) (es : List Expense) :
    aggregate (ecmaRuntime tz) es = aggregate (ecmaRuntime 0) es := by
  unfold aggregate buildMonthsMap
  have : addExpense (ecmaRuntime tz) = addExpense (ecmaRuntime 0) := by
    funext M e
    exact addExpense_east tz h0 h1 M e
  rw [this]

/-- The year and 1-based month the getters return for a date-only string, in a
runtime at or east of UTC, are those written in the string. -/
theorem getters_of_isoDate (tz : Int) (h0 : 0 ≤ tz) (h1 : tz < 1440) {s : String} {y m d : Int}
    (h : parseIsoDate s = some (y, m, d)) :
    getFullYear (ecmaRuntime tz) (dateParse s) = some y ∧
    (getMonth (ecmaRuntime tz) (dateParse s)).map (· + 1) = some m := by
  obtain ⟨hm1, hm2, hd1, hd2⟩ := parseIsoDate_valid h
  have hp : dateParse s = some (daysFromCivil y m d * msPerDay) := by
    unfold dateParse; rw [h]; rfl
  rw [hp]
  simp only [getFullYear, getMonth, Option.map_some', localTime_day_of_east tz _ h0 h1,
    civilFromDays_daysFromCivil y m d hm1 hm2 hd1 hd2, Option.some.injEq, true_and]
  omega


/-! ## The month key determines year and month -/

theorem digitChar_value : ∀ k, k < 10 → (Nat.digitChar k).toNat - 48 = k := by decide

theorem digitsValueFrom_eq (cs : List Char) :
    ∀ acc, digitsValueFrom acc cs = acc * 10 ^ cs.length + digitsValueFrom 0 cs := by
  induction cs with
  | nil => intro acc; simp [digitsValueFrom]
  | cons c cs ih =>
    intro acc
    have h1 : digitsValueFrom acc (c :: cs) = digitsValueFrom (10 * acc + (c.toNat - 48)) cs := rfl
    have h2 : digitsValueFrom 0 (c :: cs) = digitsValueFrom (10 * 0 + (c.toNat - 48)) cs := rfl
    rw [h1, h2, ih (10 * acc + (c.toNat - 48)), ih (10 * 0 + (c.toNat - 48))]
    simp only [List.length_cons, pow_succ]
    ring

theorem toDigitsCore_value (fuel : Nat) :
    ∀ (n : Nat) (ds : List Char), n < fuel →
      digitsValueFrom 0 (Nat.toDigitsCore 10 fuel n ds)
        = n * 10 ^ ds.length + digitsValueFrom 0 ds := by
  induction fuel with
  | zero => intro n ds h; omega
  | succ fuel ih =>
    intro n ds h
    unfold Nat.toDigitsCore
    simp only
    by_cases hn : n / 10 = 0
    · rw [if_pos hn]
      have hlt : n < 10 := by omega
      have h2 : digitsValueFrom 0 (Nat.digitChar (n % 10) :: ds)
          = digitsValueFrom (10 * 0 + ((Nat.digitChar (n % 10)).toNat - 48)) ds := rfl
      rw [h2, digitsValueFrom_eq ds, digitChar_value _ (Nat.mod_lt _ (by decide)),
        Nat.mod_eq_of_lt hlt]
      ring
    · rw [if_neg hn]
      rw [ih (n / 10) _ (by omega)]
      have h2 : digitsValueFrom 0 (Nat.digitChar (n % 10) :: ds)
          = digitsValueFrom (10 * 0 + ((Nat.digitChar (n % 10)).toNat - 48)) ds := rfl
      rw [h2, digitsValueFrom_eq ds, digitChar_value _ (Nat.mod_lt _ (by decide))]
      simp only [List.length_cons, pow_succ]
      have hdm := Nat.div_add_mod n 10
      generalize n / 10 = q at *
      generalize n % 10 = r at *
      subst hdm
      ring

theorem repr_value (n : Nat) : digitsValueFrom 0 (Nat.repr n).data = n := by
  unfold Nat.repr Nat.toDigits
  rw [show (Nat.toDigitsCore 10 (n + 1) n []).asString.data = Nat.toDigitsCore 10 (n + 1) n [] from rfl]
  rw [toDigitsCore_value (n + 1) n [] (by omega)]
  simp [digitsValueFrom]

theorem repr_injective {a b : Nat} (h : Nat.repr a = Nat.repr b) : a = b := by
  rw [← repr_value a, ← repr_value b, h]


theorem toDigitsCore_head (fuel : Nat) :
    ∀ (n : Nat) (ds : List Char), n < fuel →
      ∃ k, k < 10 ∧ ∃ tl, Nat.toDigitsCore 10 fuel n ds = Nat.digitChar k :: tl := by
  induction fuel with
  | zero => intro n ds h; omega
  | succ fuel ih =>
    intro n ds h
    unfold Nat.toDigitsCore
    simp only
    by_cases hn : n / 10 = 0
    · rw [if_pos hn]
      exact ⟨n % 10, Nat.mod_lt _ (by decide), ds, rfl⟩
    · rw [if_neg hn]
      exact ih (n / 10) _ (by omega)

theorem repr_head_ne_minus (n : Nat) (tl : List Char) : (Nat.repr n).data ≠ '-' :: tl := by
  obtain ⟨k, hk, tl2, h⟩ := toDigitsCore_head (n + 1) n [] (by omega)
  have hd : (Nat.repr n).data = Nat.digitChar k :: tl2 := h
  rw [hd]
  intro hc
  have h1 : Nat.digitChar k = '-' := (List.cons.inj hc).1
  have h2 : ∀ k, k < 10 → Nat.digitChar k ≠ '-' := by decide
  exact h2 k hk h1

theorem intToString_data (z : Int) :
    (∃ n : Nat, z = n ∧ (intToString z).data = (Nat.repr n).data) ∨
    (∃ n : Nat, z = Int.negSucc n ∧ (intToString z).data = '-' :: (Nat.repr (n + 1)).data) := by
  cases z with
  | ofNat n => exact Or.inl ⟨n, rfl, rfl⟩
  | negSucc n => exact Or.inr ⟨n, rfl, rfl⟩

/-- Decimal rendering of integers is injective. -/
theorem intToString_injective {a b : Int} (h : intToString a = intToString b) : a = b := by
  have hd : (intToString a).data = (intToString b).data := by rw [h]
  rcases intToString_data a with ⟨n, rfl, ha⟩ | ⟨n, rfl, ha⟩ <;>
    rcases intToString_data b with ⟨k, rfl, hb⟩ | ⟨k, rfl, hb⟩
  · rw [ha, hb] at hd
    have : n = k := repr_injective (String.ext hd)
    rw [this]
  · rw [ha, hb] at hd
    exact absurd hd (repr_head_ne_minus n _)
  · rw [ha, hb] at hd
    exact absurd hd.symm (repr_head_ne_minus k _)
  · rw [ha, hb] at hd
    have h2 : n + 1 = k + 1 := repr_injective (String.ext (List.cons.inj hd).2)
    have : n = k := by omega
    rw [this]

theorem padStart2_month (m : Int) (h1 : 1 ≤ m) (h2 : m ≤ 12) :
    (padStart2 (numToString (some m))).data.length = 2 ∧
    (digitsValueFrom 0 (padStart2 (numToString (some m))).data : Int) = m := by
  interval_cases m <;> exact ⟨by decide, by decide⟩

/-- A month key spelled from a numeric year and a month in 1..12 is spelled
by no other year and month of that kind, and is not the key `NaN-NaN`. -/
theorem key_injective (y m : Int) (hm1 : 1 ≤ m) (hm2 : m ≤ 12) (g : MonthGroup)
    (hg : (g.year = none ∧ g.month = none) ∨
      ∃ y0 m0, g.year = some y0 ∧ g.month = some m0 ∧ 1 ≤ m0 ∧ m0 ≤ 12)
    (hkey : groupKey g = numToString (some y) ++ "-" ++ padStart2 (numToString (some m))) :
    g.year = some y ∧ g.month = some m := by
  have hdata : (groupKey g).data =
      ((intToString y).data ++ ['-']) ++ (padStart2 (numToString (some m))).data := by
    rw [hkey]; simp [String.data_append, numToString, intToString]
  obtain ⟨hl, hv⟩ := padStart2_month m hm1 hm2
  rcases hg with ⟨hy, hmo⟩ | ⟨y0, m0, hy, hmo, h1, h2⟩
  · exfalso
    have hk : (groupKey g).data = ['N', 'a', 'N', '-', 'N'] ++ ['a', 'N'] := by
      unfold groupKey; rw [hy, hmo]; rfl
    rw [hk] at hdata
    have := (List.append_inj' hdata (by rw [hl]; rfl)).1
    have h3 := congrArg List.getLast? this
    simp at h3
  · obtain ⟨hl0, hv0⟩ := padStart2_month m0 h1 h2
    have hk : (groupKey g).data =
        ((intToString y0).data ++ ['-']) ++ (padStart2 (numToString (some m0))).data := by
      unfold groupKey; rw [hy, hmo]; simp [String.data_append, numToString, intToString]
    rw [hk] at hdata
    obtain ⟨ha, hb⟩ := List.append_inj' hdata (by rw [hl, hl0])
    have hy0 : y0 = y := intToString_injective (String.ext (List.append_cancel_right ha))
    have hm0 : m0 = m := by rw [← hv0, ← hv, hb]
    rw [hy, hmo, hy0, hm0]
    exact ⟨rfl, rfl⟩

/-- In a runtime at or east of UTC every group of the aggregation either
carries `NaN` for year and month or a numeric year and a month in 1..12. -/
theorem aggregate_east_shape (tz : Int) (h0 : 0 ≤ tz) (h1 : tz < 1440) (es : List Expense) :
    ∀ g ∈ aggregate (ecmaRuntime tz) es,
      (g.year = none ∧ g.month = none) ∨
      ∃ y0 m0, g.year = some y0 ∧ g.month = some m0 ∧ 1 ≤ m0 ∧ m0 ≤ 12 := by
  intro g hg
  have h := buildMonthsMap_inv (ecmaRuntime tz) es
  obtain ⟨kg, hkg, rfl⟩ := mem_aggregate.1 hg
  obtain ⟨x, _, _, hx2, hx3⟩ := h.origin kg hkg
  show (kg.2.year = none ∧ kg.2.month = none) ∨ _
  have hp : (ecmaRuntime tz).dateParse = dateParse := rfl
  rw [hp] at hx2 hx3
  rcases dateParse_eq x.date with hd | ⟨y0, m0, d0, hpi, _⟩
  · left
    rw [hx2, hx3, hd]
    exact ⟨rfl, rfl⟩
  · right
    obtain ⟨g1, g2⟩ := getters_of_isoDate tz h0 h1 hpi
    obtain ⟨hm1, hm2, _, _⟩ := parseIsoDate_valid hpi
    exact ⟨y0, m0, hx2.trans g1, hx3.trans g2, hm1, hm2⟩

/-- In a runtime at or east of UTC (offset below 24 hours), an expense whose
date is a valid date-only string `YYYY-MM-DD` is placed in the group whose
year is `YYYY` and whose month is `MM`. -/
theorem aggregate_east_places_by_date (tz : Int) (h0 : 0 ≤ tz) (h1 : tz < 1440)
    (es : List Expense) (e : Expense) (he : e ∈ es) (y m d : Int)
    (hdate : parseIsoDate e.date = some (y, m, d)) :
    ∃ g ∈ aggregate (ecmaRuntime tz) es,
      e ∈ g.expenses ∧ g.year = some y ∧ g.month = some m := by
  obtain ⟨g, hg, hk⟩ := aggregate_covers (ecmaRuntime tz) es e he
  refine ⟨g, hg, ?_, ?_⟩
  · rw [aggregate_members (ecmaRuntime tz) es g hg, List.mem_filter]
    exact ⟨he, decide_eq_true hk.symm⟩
  · obtain ⟨g1, g2⟩ := getters_of_isoDate tz h0 h1 hdate
    obtain ⟨hm1, hm2, _, _⟩ := parseIsoDate_valid hdate
    apply key_injective y m hm1 hm2 g (aggregate_east_shape tz h0 h1 es g hg)
    rw [hk]
    unfold monthKey
    have hp : (ecmaRuntime tz).dateParse = dateParse := rfl
    simp only [hp, g1, g2]


/-! ## Dependence on the zone of the runtime -/

/-- C5, at a failing input. In a runtime five hours west of UTC the expense
dated `2024-01-01` is placed in the group of December 2023, not in the group
of year 2024, month 1 that its date string names. -/
theorem aggregate_west_of_utc_shifts_month :
    aggregate (ecmaRuntime (-300)) [⟨1, 30, "coffee", "2024-01-01", none⟩] =
      [⟨some 2023, some 12, [⟨1, 30, "coffee", "2024-01-01", none⟩], 0, 30, -30⟩] := by
  decide!

/-- C6, at a failing input. In a runtime five hours west of UTC the example
input yields a single group for January 2024 holding all three records,
instead of the two groups of the example. -/
theorem aggregate_specExample_west_of_utc :
    aggregate (ecmaRuntime (-300)) specExample =
      [⟨some 2024, some 1, specExample, 200, 80, 120⟩] := by
  decide!

/-- In a runtime on UTC the example input yields the two groups of the
example, February before January. -/
theorem aggregate_specExample_utc :
    aggregate (ecmaRuntime 0) specExample =
      [⟨some 2024, some 2, specExample.drop 2, 0, 30, -30⟩,
       ⟨some 2024, some 1, specExample.take 2, 200, 50, 150⟩] := by
  decide!


/-- In every runtime at or east of UTC (offset below 24 hours) the example
input yields the two groups of the example, February before January. -/
theorem aggregate_specExample_east (tz : Int) (h0 : 0 ≤ tz) (h1 : tz < 1440) :
    aggregate (ecmaRuntime tz) specExample =
      [⟨some 2024, some 2, specExample.drop 2, 0, 30, -30⟩,
       ⟨some 2024, some 1, specExample.take 2, 200, 50, 150⟩] := by
  rw [aggregate_east tz h0 h1]
  exact aggregate_specExample_utc


/-! ## The fetch routine of `MonthlyView` on an empty list -/

theorem aggregate_ne_nil (rt : Runtime) (es : List Expense) (h : es ≠ []) : aggregate rt es ≠ [] := by
  obtain ⟨e, he⟩ := List.exists_mem_of_ne_nil es h
  obtain ⟨g, hg, _⟩ := aggregate_covers rt es e he
  exact List.ne_nil_of_mem hg

/-- C7. With a token present, a successful fetch of the empty expense list
stores the empty sequence of groups, leaves the error message empty and issues
nothing but the one request (no logout, no redirect), so the view renders its
placeholder; a successful fetch of a non-empty list stores a non-empty
sequence. -/
theorem fetchMonthlyData_empty_list (rt : Runtime) (t : String) (ht : t ≠ "")
    (s : MonthlyViewState) :
    aggregate rt [] = [] ∧
    MonthlyView.fetchMonthlyData rt (some t) (.ok []) s =
      ({ monthlyData := [], selectedMonth := s.selectedMonth, loading := false, error := "" },
       [.request (getExpenses t)]) ∧
    MonthlyView.showsNoDataPlaceholder (MonthlyView.fetchMonthlyData rt (some t) (.ok []) s).1
      = true ∧
    (∀ es : List Expense, es ≠ [] →
      aggregate rt es ≠ [] ∧
      (MonthlyView.fetchMonthlyData rt (some t) (.ok es) s).1.monthlyData ≠ [] ∧
      (MonthlyView.fetchMonthlyData rt (some t) (.ok es) s).1.error = "" ∧
      (MonthlyView.fetchMonthlyData rt (some t) (.ok es) s).2 = [.request (getExpenses t)]) := by
  have h0 : aggregate rt [] = [] := rfl
  refine ⟨h0, ?_, ?_, ?_⟩
  · simp only [MonthlyView.fetchMonthlyData, if_neg ht, h0]
  · simp only [MonthlyView.fetchMonthlyData, if_neg ht, h0, MonthlyView.showsNoDataPlaceholder,
      List.length_nil, decide_True]
  · intro es hes
    simp only [MonthlyView.fetchMonthlyData, if_neg ht]
    exact ⟨aggregate_ne_nil rt es hes, aggregate_ne_nil rt es hes, trivial, trivial⟩

/-- Witness for C7: the first fetch of a freshly mounted view. -/
theorem fetchMonthlyData_empty_list_witness :
    "tok" ≠ "" ∧
    MonthlyView.fetchMonthlyData (ecmaRuntime 0) (some "tok") (.ok []) MonthlyView.initialState =
      ({ monthlyData := [], selectedMonth := none, loading := false, error := "" },
       [.request (getExpenses "tok")]) :=
  ⟨by decide,
   (fetchMonthlyData_empty_list (ecmaRuntime 0) "tok" (by decide) MonthlyView.initialState).2.1⟩

/-! ## The two category lists -/

/-- C8. When every fetched category has type `income` or `expense`, the lists
`incomeCategories` and `expenseCategories` partition the fetched list: each
category is in exactly one of them, each list is a subsequence of the fetched
list, their lengths add up to its length and together they are a
rearrangement of it.  A category of any other type is in neither list,
whatever was fetched. -/
theorem categories_partition (categories : List Category)
    (h : ∀ c ∈ categories, c.type = "income" ∨ c.type = "expense") :
    (∀ c ∈ categories,
      (c ∈ incomeCategories categories ∧ c ∉ expenseCategories categories) ∨
      (c ∉ incomeCategories categories ∧ c ∈ expenseCategories categories)) ∧
    (incomeCategories categories).Sublist categories ∧
    (expenseCategories categories).Sublist categories ∧
    (incomeCategories categories).length + (expenseCategories categories).length
      = categories.length ∧
    (incomeCategories categories ++ expenseCategories categories).Perm categories ∧
    (∀ (fetched : List Category) (c : Category), c.type ≠ "income" → c.type ≠ "expense" →
      c ∉ incomeCategories fetched ∧ c ∉ expenseCategories fetched) := by
  have hperm : (incomeCategories categories ++ expenseCategories categories).Perm categories := by
    have hexp : expenseCategories categories
        = categories.filter (fun cat => !decide (cat.type = "income")) := by
      unfold expenseCategories
      apply List.filter_congr
      intro c hc
      rcases h c hc with h1 | h1
      · rw [h1]; decide
      · rw [h1]; decide
    rw [hexp]
    exact List.filter_append_perm _ categories
  refine ⟨?_, List.filter_sublist _, List.filter_sublist _, ?_, hperm, ?_⟩
  · intro c hc
    unfold incomeCategories expenseCategories
    simp only [List.mem_filter, decide_eq_true_eq, hc, true_and]
    rcases h c hc with h1 | h1
    · left; rw [h1]; exact ⟨rfl, by decide⟩
    · right; rw [h1]; exact ⟨by decide, rfl⟩
  · rw [← List.length_append]; exact hperm.length_eq
  · intro fetched c h1 h2
    unfold incomeCategories expenseCategories
    simp only [List.mem_filter, decide_eq_true_eq, not_and]
    exact ⟨fun _ => h1, fun _ => h2⟩

/-- Witness for C8: one income and two expense categories. -/
theorem categories_partition_witness :
    (∀ c ∈ [(⟨1, "Salary", "income"⟩ : Category), ⟨2, "Food", "expense"⟩, ⟨3, "Rent", "expense"⟩],
        c.type = "income" ∨ c.type = "expense") ∧
    (incomeCategories [⟨1, "Salary", "income"⟩, ⟨2, "Food", "expense"⟩, ⟨3, "Rent", "expense"⟩]).length
      + (expenseCategories
          [⟨1, "Salary", "income"⟩, ⟨2, "Food", "expense"⟩, ⟨3, "Rent", "expense"⟩]).length
      = 3 :=
  ⟨by decide,
   (categories_partition [⟨1, "Salary", "income"⟩, ⟨2, "Food", "expense"⟩, ⟨3, "Rent", "expense"⟩]
      (by decide)).2.2.2.1⟩

/-! ## The session context -/

theorem step_preserves_sync (s : AuthState) (a : AuthAction) (h : s.token = s.persisted) :
    (AuthProvider.step s a).token = (AuthProvider.step s a).persisted := by
  cases a with
  | loginUser t => rfl
  | logoutUser => rfl
  | setUser u => exact h

theorem foldl_step_sync (actions : List AuthAction) :
    ∀ s : AuthState, s.token = s.persisted →
      (actions.foldl AuthProvider.step s).token = (actions.foldl AuthProvider.step s).persisted := by
  induction actions with
  | nil => intro s h; exact h
  | cons a rest ih =>
    intro s h
    exact ih _ (step_preserves_sync s a h)

theorem init_sync (persisted : Option String) :
    (AuthProvider.init persisted).token = persisted ∧
    (AuthProvider.init persisted).persisted = persisted ∧
    (AuthProvider.init persisted).user = none := by
  unfold AuthProvider.init getToken
  by_cases h : truthy persisted = true
  · simp only [if_pos h, and_self]
  · simp only [if_neg h, and_self]

/-- C9. After initialisation and after any sequence of context calls the live
token equals the persisted token; `loginUser t` leaves both equal to `t` and
the cached user unchanged; `logoutUser` leaves the persisted token absent and
the live token and the cached user null, whatever the prior state. -/
theorem session_token_in_sync (persisted : Option String) (actions : List AuthAction) :
    (AuthProvider.init persisted).token = (AuthProvider.init persisted).persisted ∧
    (AuthProvider.init persisted).persisted = persisted ∧
    (AuthProvider.run persisted actions).token = (AuthProvider.run persisted actions).persisted ∧
    (∀ (s : AuthState) (t : String),
      (AuthProvider.loginUser t s).persisted = some t ∧
      (AuthProvider.loginUser t s).token = some t ∧
      (AuthProvider.loginUser t s).user = s.user) ∧
    (∀ s : AuthState,
      (AuthProvider.logoutUser s).persisted = none ∧
      (AuthProvider.logoutUser s).token = none ∧
      (AuthProvider.logoutUser s).user = none) := by
  obtain ⟨h1, h2, _⟩ := init_sync persisted
  refine ⟨h1.trans h2.symm, h2, ?_, fun s t => ⟨rfl, rfl, rfl⟩, fun s => ⟨rfl, rfl, rfl⟩⟩
  exact foldl_step_sync actions _ (h1.trans h2.symm)

/-! ## The `Authorization` header of the API client -/

/-- C10. Every API function for an authenticated operation builds a request
with exactly one `Authorization` header, whose value is `Bearer ` followed by
the token it was given; `register` and `login` build requests without an
`Authorization` header. -/
theorem authorization_header (token : String) (skip limit months expenseId categoryId : Int)
    (expenseData : ExpenseData) (categoryData : CategoryData)
    (userData : List (String × String)) (email password : String) :
    authorizationHeaders (getCurrentUser token) = ["Bearer " ++ token] ∧
    authorizationHeaders (getExpenses token) = ["Bearer " ++ token] ∧
    authorizationHeaders (getExpenses token skip limit) = ["Bearer " ++ token] ∧
    authorizationHeaders (createExpense token expenseData) = ["Bearer " ++ token] ∧
    authorizationHeaders (updateExpense token expenseId expenseData) = ["Bearer " ++ token] ∧
    authorizationHeaders (deleteExpense token expenseId) = ["Bearer " ++ token] ∧
    authorizationHeaders (getCategories token) = ["Bearer " ++ token] ∧
    authorizationHeaders (createCategory token categoryData) = ["Bearer " ++ token] ∧
    authorizationHeaders (deleteCategory token categoryId) = ["Bearer " ++ token] ∧
    authorizationHeaders (getDashboard token) = ["Bearer " ++ token] ∧
    authorizationHeaders (getCategoryBreakdown token) = ["Bearer " ++ token] ∧
    authorizationHeaders (getMonthlySummary token) = ["Bearer " ++ token] ∧
    authorizationHeaders (getMonthlySummary token months) = ["Bearer " ++ token] ∧
    authorizationHeaders (register userData) = [] ∧
    authorizationHeaders (login email password) = [] := by
  refine ⟨?_, ?_, ?_, ?_, ?_, ?_, ?_, ?_, ?_, ?_, ?_, ?_, ?_, ?_, ?_⟩ <;>
    simp [authorizationHeaders, getCurrentUser, getExpenses, createExpense, updateExpense,
      deleteExpense, getCategories, createCategory, deleteCategory, getDashboard,
      getCategoryBreakdown, getMonthlySummary, register, login]


/-! ## Method and path of every API function -/

theorem string_append_left_cancel {a b c : String} (h : a ++ b = a ++ c) : b = c := by
  have hd : (a ++ b).data = (a ++ c).data := by rw [h]
  rw [String.data_append, String.data_append] at hd
  exact String.ext (List.append_cancel_left hd)

/-- C11. Every API function builds one request whose method and path, after
the fixed base URL, are those of its row in the interface table: the defaults
of `getExpenses` and `getMonthlySummary` are `skip=0&limit=100` and
`months=6`, explicit arguments are printed in their place, and
`updateExpense`, `deleteExpense` and `deleteCategory` end the path with the
given id, different ids giving different paths. -/
theorem api_method_and_path (token : String) (skip limit months expenseId categoryId : Int)
    (expenseData : ExpenseData) (categoryData : CategoryData)
    (userData : List (String × String)) (email password : String) :
    ((register userData).method = .POST ∧
      (register userData).url = API_BASE_URL ++ "/auth/register") ∧
    ((login email password).method = .POST ∧
      (login email password).url = API_BASE_URL ++ "/auth/login" ∧
      (login email password).data
        = some (.urlEncoded [("username", email), ("password", password)])) ∧
    ((getCurrentUser token).method = .GET ∧
      (getCurrentUser token).url = API_BASE_URL ++ "/auth/me") ∧
    ((getExpenses token).method = .GET ∧
      (getExpenses token).url = API_BASE_URL ++ "/expenses/?skip=0&limit=100") ∧
    ((getExpenses token skip limit).method = .GET ∧
      (getExpenses token skip limit).url =
        API_BASE_URL ++ "/expenses/?skip=" ++ intToString skip ++ "&limit="
          ++ intToString limit) ∧
    ((createExpense token expenseData).method = .POST ∧
      (createExpense token expenseData).url = API_BASE_URL ++ "/expenses/" ∧
      (createExpense token expenseData).data = some (.expenseData expenseData)) ∧
    ((updateExpense token expenseId expenseData).method = .PUT ∧
      (updateExpense token expenseId expenseData).url =
        API_BASE_URL ++ "/expenses/" ++ intToString expenseId ∧
      (updateExpense token expenseId expenseData).data = some (.expenseData expenseData)) ∧
    ((deleteExpense token expenseId).method = .DELETE ∧
      (deleteExpense token expenseId).url =
        API_BASE_URL ++ "/expenses/" ++ intToString expenseId) ∧
    ((getCategories token).method = .GET ∧
      (getCategories token).url = API_BASE_URL ++ "/categories/") ∧
    ((createCategory token categoryData).method = .POST ∧
      (createCategory token categoryData).url = API_BASE_URL ++ "/categories/" ∧
      (createCategory token categoryData).data = some (.categoryData categoryData)) ∧
    ((deleteCategory token categoryId).method = .DELETE ∧
      (deleteCategory token categoryId).url =
        API_BASE_URL ++ "/categories/" ++ intToString categoryId) ∧
    ((getDashboard token).method = .GET ∧
      (getDashboard token).url = API_BASE_URL ++ "/analytics/dashboard") ∧
    ((getCategoryBreakdown token).method = .GET ∧
      (getCategoryBreakdown token).url = API_BASE_URL ++ "/analytics/by-category") ∧
    ((getMonthlySummary token).method = .GET ∧
      (getMonthlySummary token).url = API_BASE_URL ++ "/analytics/monthly?months=6") ∧
    ((getMonthlySummary token months).method = .GET ∧
      (getMonthlySummary token months).url =
        API_BASE_URL ++ "/analytics/monthly?months=" ++ intToString months) ∧
    (∀ i j : Int, (updateExpense token i expenseData).url
        = (updateExpense token j expenseData).url → i = j) ∧
    (∀ i j : Int, (deleteExpense token i).url = (deleteExpense token j).url → i = j) ∧
    (∀ i j : Int, (deleteCategory token i).url = (deleteCategory token j).url → i = j) := by
  refine ⟨⟨rfl, rfl⟩, ⟨rfl, rfl, rfl⟩, ⟨rfl, rfl⟩, ⟨rfl, ?_⟩, ⟨rfl, rfl⟩, ⟨rfl, rfl, rfl⟩,
    ⟨rfl, rfl, rfl⟩, ⟨rfl, rfl⟩, ⟨rfl, rfl⟩, ⟨rfl, rfl, rfl⟩, ⟨rfl, rfl⟩, ⟨rfl, rfl⟩, ⟨rfl, rfl⟩,
    ⟨rfl, ?_⟩, ⟨rfl, rfl⟩, ?_, ?_, ?_⟩
  · show API_BASE_URL ++ "/expenses/?skip=" ++ intToString 0 ++ "&limit=" ++ intToString 100
      = API_BASE_URL ++ "/expenses/?skip=0&limit=100"
    decide
  · show API_BASE_URL ++ "/analytics/monthly?months=" ++ intToString 6
      = API_BASE_URL ++ "/analytics/monthly?months=6"
    decide
  · intro i j h
    exact intToString_injective (string_append_left_cancel h)
  · intro i j h
    exact intToString_injective (string_append_left_cancel h)
  · intro i j h
    exact intToString_injective (string_append_left_cancel h)

/-! ## Conservation of totals by the aggregation -/

theorem sum_filter_flatMap (p : Expense → Bool) (l : List MonthGroup) :
    (l.map (fun g => sumAmounts (g.expenses.filter p))).sum
      = sumAmounts ((l.flatMap (fun g => g.expenses)).filter p) := by
  induction l with
  | nil => simp [sumAmounts]
  | cons g rest ih =>
    simp only [List.map_cons, List.sum_cons, List.flatMap_cons, List.filter_append,
      sumAmounts_append, ih]

theorem sumAmounts_perm {l1 l2 : List Expense} (h : l1.Perm l2) :
    sumAmounts l1 = sumAmounts l2 := by
  unfold sumAmounts
  exact (h.map _).sum_eq

theorem isIncome_eq_decide (e : Expense) : isIncome e = decide (hasIncomeCategory e) := by
  by_cases hi : isIncome e = true
  · rw [hi]; exact (decide_eq_true ((hasIncomeCategory_iff e).2 hi)).symm
  · rw [Bool.not_eq_true] at hi
    rw [hi]
    exact (decide_eq_false (fun hc => by
      have := (hasIncomeCategory_iff e).1 hc
      rw [hi] at this; exact Bool.false_ne_true this)).symm

theorem aggregate_group_totals (rt : Runtime) (es : List Expense) :
    ∀ g ∈ aggregate rt es,
      g.total_income = sumAmounts (g.expenses.filter (fun e => isIncome e)) ∧
      g.total_expenses = sumAmounts (g.expenses.filter (fun e => !isIncome e)) ∧
      g.net_balance = g.total_income - g.total_expenses := by
  intro g hg
  have h := buildMonthsMap_inv rt es
  obtain ⟨kg, hkg, rfl⟩ := mem_aggregate.1 hg
  exact ⟨h.income kg hkg, h.outgo kg hkg, rfl⟩

/-- C20. The aggregation conserves totals: over all groups, the
`total_income` values add up to the sum of the amounts of the input expenses
whose category has type `income`, the `total_expenses` values to the sum of
the amounts of all other input expenses, the `net_balance` values to the
difference of these two sums, and the group sizes to the length of the
input. -/
theorem aggregate_conserves_totals (rt : Runtime) (allExpenses : List Expense) :
    ((aggregate rt allExpenses).map (fun g => g.total_income)).sum
      = sumAmounts (allExpenses.filter (fun e => decide (hasIncomeCategory e))) ∧
    ((aggregate rt allExpenses).map (fun g => g.total_expenses)).sum
      = sumAmounts (allExpenses.filter (fun e => !decide (hasIncomeCategory e))) ∧
    ((aggregate rt allExpenses).map (fun g => g.net_balance)).sum
      = sumAmounts (allExpenses.filter (fun e => decide (hasIncomeCategory e)))
        - sumAmounts (allExpenses.filter (fun e => !decide (hasIncomeCategory e))) ∧
    ((aggregate rt allExpenses).map (fun g => g.expenses.length)).sum = allExpenses.length := by
  have hperm := aggregate_flat_perm rt allExpenses
  have hg := aggregate_group_totals rt allExpenses
  have hin : ((aggregate rt allExpenses).map (fun g => g.total_income)).sum
      = sumAmounts (allExpenses.filter (fun e => isIncome e)) := by
    rw [← sumAmounts_perm (hperm.filter _), ← sum_filter_flatMap]
    congr 1
    exact List.map_congr_left (fun g hgm => (hg g hgm).1)
  have hout : ((aggregate rt allExpenses).map (fun g => g.total_expenses)).sum
      = sumAmounts (allExpenses.filter (fun e => !isIncome e)) := by
    rw [← sumAmounts_perm (hperm.filter _), ← sum_filter_flatMap]
    congr 1
    exact List.map_congr_left (fun g hgm => (hg g hgm).2.1)
  have hnet : ((aggregate rt allExpenses).map (fun g => g.net_balance)).sum
      = ((aggregate rt allExpenses).map (fun g => g.total_income)).sum
        - ((aggregate rt allExpenses).map (fun g => g.total_expenses)).sum := by
    have : (aggregate rt allExpenses).map (fun g => g.net_balance)
        = (aggregate rt allExpenses).map (fun g => g.total_income - g.total_expenses) :=
      List.map_congr_left (fun g hgm => (hg g hgm).2.2)
    rw [this]
    generalize aggregate rt allExpenses = l
    induction l with
    | nil => simp
    | cons g rest ih => simp only [List.map_cons, List.sum_cons, ih]; ring
  have hlen : ((aggregate rt allExpenses).map (fun g => g.expenses.length)).sum
      = allExpenses.length := by
    rw [← hperm.length_eq]
    generalize aggregate rt allExpenses = l
    induction l with
    | nil => simp
    | cons g rest ih =>
      simp only [List.map_cons, List.sum_cons, List.flatMap_cons, List.length_append, ih]
  simp only [← isIncome_eq_decide]
  exact ⟨hin, hout, by rw [hnet, hin, hout], hlen⟩


/-! ## Normalisation of the form date (`Dashboard.handleSubmit`, lines 71-81) -/

theorem includesChar_iff (s : String) (c : Char) : includesChar s c = true ↔ c ∈ s.data := by
  unfold includesChar
  simp

theorem takeWhile_ne_split (c : Char) (l : List Char) (h : c ∈ l) :
    ∃ rest, l = l.takeWhile (fun x => x ≠ c) ++ c :: rest := by
  induction l with
  | nil => simp at h
  | cons a l ih =>
    by_cases hac : a = c
    · refine ⟨l, ?_⟩
      simp [List.takeWhile, hac]
    · have hc : c ∈ l := by
        rcases List.mem_cons.1 h with h1 | h1
        · exact absurd h1.symm hac
        · exact h1
      obtain ⟨rest, hrest⟩ := ih hc
      refine ⟨rest, ?_⟩
      simp only [List.takeWhile, ne_eq, hac, not_false_eq_true, decide_True, List.cons_append,
        List.cons.injEq, true_and]
      exact hrest

theorem not_mem_takeWhile_ne (c : Char) (l : List Char) :
    c ∉ l.takeWhile (fun x => x ≠ c) := by
  intro h
  have := List.mem_takeWhile_imp h
  simp at this

theorem takeWhile_ne_of_not_mem (c : Char) (l : List Char) (h : c ∉ l) :
    l.takeWhile (fun x => x ≠ c) = l := by
  rw [List.takeWhile_eq_self_iff]
  intro x hx
  have : x ≠ c := fun e => h (e ▸ hx)
  simp [this]

theorem takeWhile_ne_append (c : Char) (l rest : List Char) (h : c ∉ l) :
    (l ++ c :: rest).takeWhile (fun x => x ≠ c) = l := by
  induction l with
  | nil => simp [List.takeWhile]
  | cons a l ih =>
    have hac : a ≠ c := fun e => h (e ▸ List.mem_cons_self _ _)
    have hl : c ∉ l := fun hm => h (List.mem_cons_of_mem _ hm)
    simp only [List.cons_append, List.takeWhile, ne_eq, hac, not_false_eq_true, decide_True,
      List.cons.injEq, true_and]
    exact ih hl

theorem normalizeDate_of_not_mem (date : String) (h : 'T' ∉ date.data) :
    normalizeDate date = date := by
  unfold normalizeDate
  have : includesChar date 'T' = false := by
    rw [← Bool.not_eq_true, includesChar_iff]; exact h
  rw [this]; rfl

theorem normalizeDate_of_mem (date : String) (h : 'T' ∈ date.data) :
    normalizeDate date = String.mk (date.data.takeWhile (fun x => x ≠ 'T')) := by
  unfold normalizeDate splitHead
  rw [(includesChar_iff date 'T').2 h]; rfl

theorem normalizeDate_no_T (date : String) : 'T' ∉ (normalizeDate date).data := by
  by_cases h : 'T' ∈ date.data
  · rw [normalizeDate_of_mem date h]
    exact not_mem_takeWhile_ne 'T' _
  · rw [normalizeDate_of_not_mem date h]; exact h

theorem digitVal_T : digitVal 'T' = none := by decide

/-- A valid date-only string contains no `T`. -/
theorem parseIsoDate_no_T {d : String} {ymd : Int × Int × Int}
    (h : parseIsoDate d = some ymd) : 'T' ∉ d.data := by
  unfold parseIsoDate at h
  split at h
  · rename_i y1 y2 y3 y4 m1 m2 d1 d2 heq
    split at h
    · rename_i a b c e f g k l h1 h2 h3 h4 h5 h6 h7 h8
      have hdata : d.data = [y1, y2, y3, y4, '-', m1, m2, '-', d1, d2] := heq
      rw [hdata]
      intro hmem
      simp only [List.mem_cons, List.mem_singleton, List.not_mem_nil, or_false] at hmem
      have hT := digitVal_T
      rcases hmem with r | r | r | r | r | r | r | r | r | r
      · rw [← r, hT] at h1; cases h1
      · rw [← r, hT] at h2; cases h2
      · rw [← r, hT] at h3; cases h3
      · rw [← r, hT] at h4; cases h4
      · exact absurd r (by decide)
      · rw [← r, hT] at h5; cases h5
      · rw [← r, hT] at h6; cases h6
      · exact absurd r (by decide)
      · rw [← r, hT] at h7; cases h7
      · rw [← r, hT] at h8; cases h8
    · cases h
  · cases h

/-- C15. The date sent to `createExpense` by `Dashboard.handleSubmit` is the
normalised form date.  For a form date containing `T` the normalised date is
the part before the first `T`; otherwise it is the form date unchanged.
Hence a timestamp that starts with a date `YYYY-MM-DD` followed by `T` is sent
as that date, a date `YYYY-MM-DD` is sent unchanged, and normalising twice is
normalising once. -/
theorem handleSubmit_sends_normalized_date :
    (∀ (env : DashboardEnv) (token : Option String) (response : Except ApiError Unit)
        (s : DashboardState),
      requestsOf (Dashboard.handleSubmit env token response s).2 =
        [createExpense (tokenString token)
          { amount := env.parseFloat s.formData.amount
            description := s.formData.description
            category_id := env.parseInt s.formData.category_id
            date := normalizeDate s.formData.date }]) ∧
    (∀ date : String, 'T' ∈ date.data →
      'T' ∉ (normalizeDate date).data ∧
      ∃ rest : String, date = normalizeDate date ++ "T" ++ rest) ∧
    (∀ date : String, 'T' ∉ date.data → normalizeDate date = date) ∧
    (∀ (d rest : String) (ymd : Int × Int × Int), parseIsoDate d = some ymd →
      normalizeDate (d ++ "T" ++ rest) = d ∧ normalizeDate d = d) ∧
    (∀ date : String, normalizeDate (normalizeDate date) = normalizeDate date) := by
  refine ⟨?_, ?_, normalizeDate_of_not_mem, ?_, ?_⟩
  · intro env token response s
    cases response with
    | ok u => rfl
    | error err => rfl
  · intro date h
    refine ⟨normalizeDate_no_T date, ?_⟩
    obtain ⟨rest, hrest⟩ := takeWhile_ne_split 'T' date.data h
    refine ⟨String.mk rest, ?_⟩
    apply String.ext
    rw [normalizeDate_of_mem date h]
    simp only [String.data_append]
    rw [List.append_assoc]
    exact hrest
  · intro d rest ymd hd
    have hT := parseIsoDate_no_T hd
    refine ⟨?_, normalizeDate_of_not_mem d hT⟩
    have hmem : 'T' ∈ (d ++ "T" ++ rest).data := by
      simp [String.data_append]
    rw [normalizeDate_of_mem _ hmem]
    apply String.ext
    have : (d ++ "T" ++ rest).data = d.data ++ 'T' :: rest.data := by
      simp [String.data_append]
    rw [this]
    exact takeWhile_ne_append 'T' d.data rest.data hT
  · intro date
    exact normalizeDate_of_not_mem _ (normalizeDate_no_T date)

/-- Witness for C15: a full timestamp, and the form date of a date input. -/
theorem handleSubmit_sends_normalized_date_witness :
    normalizeDate ("2024-03-09" ++ "T" ++ "10:15:00.000Z") = "2024-03-09" ∧
    normalizeDate "2024-03-09" = "2024-03-09" :=
  handleSubmit_sends_normalized_date.2.2.2.1 "2024-03-09" "10:15:00.000Z" (2024, 3, 9)
    (by decide)


/-! ## Fetch without a token -/

/-- C12, at a failing input. Run with no token, `Dashboard.fetchData` does
not navigate and issues `getDashboard` with the header `Bearer null`: it has
no `!token` check, unlike the fetch routines of `Categories` and
`MonthlyView`. -/
theorem dashboard_fetchData_without_token :
    (Dashboard.fetchData none
        (.error { status := some 401, detail := none,
                  message := "Request failed with status code 401" })
        (.ok []) (.ok [])
        (Dashboard.initialState
          { parseFloat := fun _ => none, parseInt := fun _ => none, today := "2024-03-09" })).2
      = [.request (getDashboard "null"), .consoleError] ∧
    authorizationHeaders (getDashboard "null") = ["Bearer null"] := by
  constructor
  · rfl
  · decide

/-- With no token present (null or empty), the fetch routines of `Categories`
and `MonthlyView` navigate to the login route and issue no request.  The route
guard `ProtectedRoute` navigates to the login route in place of mounting the
guarded view, whichever of the three it is. -/
theorem fetch_without_token (token : Option String) (h : truthy token = false) :
    (∀ (response : Except ApiError (List Category)) (s : CategoriesState),
      (Categories.fetchCategories token response s).2 = [.navigate "/login"] ∧
      requestsOf (Categories.fetchCategories token response s).2 = []) ∧
    (∀ (rt : Runtime) (response : Except ApiError (List Expense)) (s : MonthlyViewState),
      (MonthlyView.fetchMonthlyData rt token response s).2 = [.navigate "/login"] ∧
      requestsOf (MonthlyView.fetchMonthlyData rt token response s).2 = []) ∧
    (∀ (r1 : Except ApiError Analytics) (r2 : Except ApiError (List Expense))
        (r3 : Except ApiError (List Category)) (s : DashboardState),
      ProtectedRoute token (Dashboard.fetchData token r1 r2 r3 s)
        = (none, [.navigate "/login"])) ∧
    (∀ (response : Except ApiError (List Category)) (s : CategoriesState),
      ProtectedRoute token (Categories.fetchCategories token response s)
        = (none, [.navigate "/login"])) ∧
    (∀ (rt : Runtime) (response : Except ApiError (List Expense)) (s : MonthlyViewState),
      ProtectedRoute token (MonthlyView.fetchMonthlyData rt token response s)
        = (none, [.navigate "/login"])) := by
  refine ⟨?_, ?_, ?_, ?_, ?_⟩
  · intro response s
    simp only [Categories.fetchCategories, h, Bool.not_false, if_true, requestsOf, and_self]
  · intro rt response s
    cases token with
    | none => exact ⟨rfl, rfl⟩
    | some t =>
      have ht : t = "" := by
        by_contra hne
        simp [truthy, hne] at h
      subst ht
      exact ⟨rfl, rfl⟩
  · intro r1 r2 r3 s
    simp only [ProtectedRoute, h, Bool.false_eq_true, if_false]
  · intro response s
    simp only [ProtectedRoute, h, Bool.false_eq_true, if_false]
  · intro rt response s
    simp only [ProtectedRoute, h, Bool.false_eq_true, if_false]

/-- The route guard on the empty token, in front of `Dashboard`. -/
theorem fetch_without_token_witness :
    truthy (some "") = false ∧
    ProtectedRoute (some "")
        (Dashboard.fetchData (some "") (.ok ⟨none, none, none⟩) (.ok []) (.ok [])
          (Dashboard.initialState
            { parseFloat := fun _ => none, parseInt := fun _ => none, today := "2024-03-09" }))
      = (none, [.navigate "/login"]) :=
  ⟨by decide,
   (fetch_without_token (some "") (by decide)).2.2.1 (.ok ⟨none, none, none⟩) (.ok []) (.ok [])
     (Dashboard.initialState
       { parseFloat := fun _ => none, parseInt := fun _ => none, today := "2024-03-09" })⟩

/-- With a token present the route guard mounts the guarded view. -/
theorem protectedRoute_with_token {σ : Type} (token : Option String) (h : truthy token = true)
    (children : σ × List Effect) :
    ProtectedRoute token children = (some children.1, children.2) := by
  simp only [ProtectedRoute, h, if_true]

/-! ## Fetch answered with status 401 -/

/-- C13, at a failing input. When `getDashboard` is answered with status 401,
`Dashboard.fetchData` shows its generic message and issues no further request,
but it neither logs out nor navigates, at once or delayed. -/
theorem dashboard_fetchData_unauthorized (token : String) (s : DashboardState)
    (r2 : Except ApiError (List Expense)) (r3 : Except ApiError (List Category)) :
    Dashboard.fetchData (some token)
        (.error { status := some 401, detail := none,
                  message := "Request failed with status code 401" }) r2 r3 s
      = ({ analytics := s.analytics, expenses := s.expenses, categories := s.categories,
           loading := false, error := "Failed to load data. Please try again.",
           showForm := s.showForm, formData := s.formData },
         [.request (getDashboard token), .consoleError]) := rfl

/-- When `getCategories` is answered with status 401, `Categories` sets its
session message and schedules logout and redirect 2000 ms later, once each,
and issues no further request. -/
theorem categories_fetch_unauthorized (token : Option String) (h : truthy token = true)
    (err : ApiError) (herr : err.status = some 401) (s : CategoriesState) :
    Categories.fetchCategories token (.error err) s
      = ({ categories := s.categories, loading := false,
           error := "Session expired. Please login again.", showForm := s.showForm,
           formData := s.formData },
         [.request (getCategories (tokenString token)), .delayed 2000 .logoutUser,
          .delayed 2000 (.navigate "/login"), .consoleError]) := by
  simp only [Categories.fetchCategories, h, Bool.not_true, Bool.false_eq_true, if_false, herr,
    if_true, Categories.fetchStart]

/-- When `getExpenses` is answered with status 401, `MonthlyView` logs out and
redirects at once, once each, and issues no further request. -/
theorem monthlyView_fetch_unauthorized (rt : Runtime) (t : String) (h : t ≠ "")
    (err : ApiError) (herr : err.status = some 401) (s : MonthlyViewState) :
    MonthlyView.fetchMonthlyData rt (some t) (.error err) s
      = ({ monthlyData := s.monthlyData, selectedMonth := s.selectedMonth, loading := false,
           error := "" },
         [.request (getExpenses t), .logoutUser, .navigate "/login", .consoleError]) := by
  simp only [MonthlyView.fetchMonthlyData, if_neg h, herr, if_true]

/-! ## Fetch failing otherwise -/

/-- C14. When a fetch fails with anything but status 401 (another status, or
no response at all), each of the three views ends with its non-empty generic
error message and has issued only requests and a console message: no logout,
no navigation, at once or delayed.  For `Dashboard` this holds whichever of
its three requests fails. -/
theorem fetch_failure_shows_generic_error (err : ApiError) (herr : err.status ≠ some 401)
    (token : Option String) (htoken : truthy token = true) :
    (∀ (a : Analytics) (es : List Expense) (r2 : Except ApiError (List Expense))
        (r3 : Except ApiError (List Category)) (s : DashboardState),
      ((Dashboard.fetchData token (.error err) r2 r3 s).1.error
          = "Failed to load data. Please try again." ∧
        (Dashboard.fetchData token (.error err) r2 r3 s).2
          = [.request (getDashboard (tokenString token)), .consoleError] ∧
        ∀ e ∈ (Dashboard.fetchData token (.error err) r2 r3 s).2, leavesSession e = false) ∧
      ((Dashboard.fetchData token (.ok a) (.error err) r3 s).1.error
          = "Failed to load data. Please try again." ∧
        (Dashboard.fetchData token (.ok a) (.error err) r3 s).2
          = [.request (getDashboard (tokenString token)),
             .request (getExpenses (tokenString token)), .consoleError] ∧
        ∀ e ∈ (Dashboard.fetchData token (.ok a) (.error err) r3 s).2,
          leavesSession e = false) ∧
      ((Dashboard.fetchData token (.ok a) (.ok es) (.error err) s).1.error
          = "Failed to load data. Please try again." ∧
        (Dashboard.fetchData token (.ok a) (.ok es) (.error err) s).2
          = [.request (getDashboard (tokenString token)),
             .request (getExpenses (tokenString token)),
             .request (getCategories (tokenString token)), .consoleError] ∧
        ∀ e ∈ (Dashboard.fetchData token (.ok a) (.ok es) (.error err) s).2,
          leavesSession e = false)) ∧
    (∀ s : CategoriesState,
      (Categories.fetchCategories token (.error err) s).1.error = "Failed to load categories" ∧
      (Categories.fetchCategories token (.error err) s).2
        = [.request (getCategories (tokenString token)), .consoleError] ∧
      ∀ e ∈ (Categories.fetchCategories token (.error err) s).2, leavesSession e = false) ∧
    (∀ (rt : Runtime) (s : MonthlyViewState),
      (MonthlyView.fetchMonthlyData rt token (.error err) s).1.error
        = "Failed to load monthly data" ∧
      (MonthlyView.fetchMonthlyData rt token (.error err) s).2
        = [.request (getExpenses (tokenString token)), .consoleError] ∧
      ∀ e ∈ (MonthlyView.fetchMonthlyData rt token (.error err) s).2,
        leavesSession e = false) ∧
    "Failed to load data. Please try again." ≠ "" ∧ "Failed to load categories" ≠ "" ∧
    "Failed to load monthly data" ≠ "" := by
  have hquiet : ∀ l : List Effect,
      (∀ e ∈ l, (∃ r, e = .request r) ∨ e = .consoleError) →
      ∀ e ∈ l, leavesSession e = false := by
    intro l hl e he
    rcases hl e he with ⟨r, rfl⟩ | rfl <;> rfl
  refine ⟨?_, ?_, ?_, by decide, by decide, by decide⟩
  · intro a es r2 r3 s
    refine ⟨⟨rfl, rfl, ?_⟩, ⟨rfl, rfl, ?_⟩, ⟨rfl, rfl, ?_⟩⟩
    · apply hquiet
      intro e he
      have he2 : e ∈ [Effect.request (getDashboard (tokenString token)), .consoleError] := he
      simp only [List.mem_cons, List.mem_singleton, List.not_mem_nil, or_false] at he2
      rcases he2 with rfl | rfl
      · exact Or.inl ⟨_, rfl⟩
      · exact Or.inr rfl
    · apply hquiet
      intro e he
      have he2 : e ∈ [Effect.request (getDashboard (tokenString token)),
          .request (getExpenses (tokenString token)), .consoleError] := he
      simp only [List.mem_cons, List.mem_singleton, List.not_mem_nil, or_false] at he2
      rcases he2 with rfl | rfl | rfl
      · exact Or.inl ⟨_, rfl⟩
      · exact Or.inl ⟨_, rfl⟩
      · exact Or.inr rfl
    · apply hquiet
      intro e he
      have he2 : e ∈ [Effect.request (getDashboard (tokenString token)),
          .request (getExpenses (tokenString token)),
          .request (getCategories (tokenString token)), .consoleError] := he
      simp only [List.mem_cons, List.mem_singleton, List.not_mem_nil, or_false] at he2
      rcases he2 with rfl | rfl | rfl | rfl
      · exact Or.inl ⟨_, rfl⟩
      · exact Or.inl ⟨_, rfl⟩
      · exact Or.inl ⟨_, rfl⟩
      · exact Or.inr rfl
  · intro s
    have heff : (Categories.fetchCategories token (.error err) s).2
        = [.request (getCategories (tokenString token)), .consoleError] := by
      simp only [Categories.fetchCategories, htoken, Bool.not_true, Bool.false_eq_true, if_false,
        herr]
    refine ⟨?_, heff, ?_⟩
    · simp only [Categories.fetchCategories, htoken, Bool.not_true, Bool.false_eq_true, if_false,
        herr]
    · rw [heff]
      apply hquiet
      intro e he
      simp only [List.mem_cons, List.mem_singleton, List.not_mem_nil, or_false] at he
      rcases he with rfl | rfl
      · exact Or.inl ⟨_, rfl⟩
      · exact Or.inr rfl
  · intro rt s
    cases token with
    | none => simp [truthy] at htoken
    | some t =>
      have ht : t ≠ "" := by
        intro h0; subst h0; simp [truthy] at htoken
      have heff : (MonthlyView.fetchMonthlyData rt (some t) (.error err) s).2
          = [.request (getExpenses (tokenString (some t))), .consoleError] := by
        simp only [MonthlyView.fetchMonthlyData, if_neg ht, herr, if_false, tokenString]
      refine ⟨?_, heff, ?_⟩
      · simp only [MonthlyView.fetchMonthlyData, if_neg ht, herr, if_false]
      · rw [heff]
        apply hquiet
        intro e he
        simp only [List.mem_cons, List.mem_singleton, List.not_mem_nil, or_false] at he
        rcases he with rfl | rfl
        · exact Or.inl ⟨_, rfl⟩
        · exact Or.inr rfl

/-- Witness for C14: a server error answered to a view holding a token. -/
theorem fetch_failure_shows_generic_error_witness :
    (some 500 : Option Nat) ≠ some 401 ∧ truthy (some "tok") = true ∧
    (Categories.fetchCategories (some "tok")
        (.error { status := some 500, detail := none, message := "Server Error" })
        Categories.initialState).2
      = [.request (getCategories "tok"), .consoleError] :=
  ⟨by decide, by decide,
   ((fetch_failure_shows_generic_error
      { status := some 500, detail := none, message := "Server Error" } (by decide)
      (some "tok") (by decide)).2.1 Categories.initialState).2.1⟩


/-! ## Deleting after confirmation -/

/-- C16. In `Dashboard.handleDelete` and `Categories.handleDelete`, a declined
confirmation ends the handler with nothing issued but the confirmation dialog
(no request, no refetch, no notification) and the state unchanged; an accepted
one is followed by exactly one delete request, for the given id, and on
success by a refetch and the success notification. -/
theorem handleDelete_after_confirmation (token : Option String) (id : Int) :
    (∀ (response : Except ApiError Unit) (s : DashboardState),
      Dashboard.handleDelete token id false response s
        = (s, [.confirm "Are you sure you want to delete this expense?"]) ∧
      requestsOf (Dashboard.handleDelete token id true response s).2
        = [deleteExpense (tokenString token) id] ∧
      (∃ rest, (Dashboard.handleDelete token id true response s).2
        = .confirm "Are you sure you want to delete this expense?"
          :: .request (deleteExpense (tokenString token) id) :: rest) ∧
      Dashboard.handleDelete token id true (.ok ()) s
        = (s, [.confirm "Are you sure you want to delete this expense?",
               .request (deleteExpense (tokenString token) id), .refetch,
               .alert "Expense deleted successfully!"])) ∧
    (∀ (response : Except ApiError Unit) (s : CategoriesState),
      Categories.handleDelete token id false response s
        = (s, [.confirm "Are you sure you want to delete this category?"]) ∧
      requestsOf (Categories.handleDelete token id true response s).2
        = [deleteCategory (tokenString token) id] ∧
      (∃ rest, (Categories.handleDelete token id true response s).2
        = .confirm "Are you sure you want to delete this category?"
          :: .request (deleteCategory (tokenString token) id) :: rest) ∧
      Categories.handleDelete token id true (.ok ()) s
        = (s, [.confirm "Are you sure you want to delete this category?",
               .request (deleteCategory (tokenString token) id), .refetch,
               .alert "Category deleted successfully!"])) := by
  constructor
  · intro response s
    cases response with
    | ok u => exact ⟨rfl, rfl, ⟨_, rfl⟩, rfl⟩
    | error err => exact ⟨rfl, rfl, ⟨_, rfl⟩, rfl⟩
  · intro response s
    cases response with
    | ok u => exact ⟨rfl, rfl, ⟨_, rfl⟩, rfl⟩
    | error err => exact ⟨rfl, rfl, ⟨_, rfl⟩, rfl⟩

/-! ## A create call that fails -/

/-- C17, at a failing input. When `createCategory` fails with a detail in the
error response, `Categories.handleSubmit` shows the fixed text
`Failed to add category`: the detail the backend provided is not in the
notification. -/
theorem categories_handleSubmit_drops_detail (token : Option String) (s : CategoriesState) :
    Categories.handleSubmit token
        (.error { status := some 400, detail := some "Category already exists",
                  message := "Request failed with status code 400" }) s
      = (s, [.request (createCategory (tokenString token) s.formData),
             .alert "Failed to add category", .consoleError]) := rfl

/-- When `createExpense` fails, `Dashboard.handleSubmit` shows the detail of
the error response when there is a non-empty one and the message of the error
otherwise; the form is neither reset nor hidden and no refetch is issued. -/
theorem dashboard_handleSubmit_failure (env : DashboardEnv) (token : Option String)
    (err : ApiError) (s : DashboardState) :
    (Dashboard.handleSubmit env token (.error err) s).1 = s ∧
    Effect.refetch ∉ (Dashboard.handleSubmit env token (.error err) s).2 ∧
    Effect.alert ("Failed to add expense: " ++ errorDetail err)
      ∈ (Dashboard.handleSubmit env token (.error err) s).2 ∧
    (∀ d, err.detail = some d → d ≠ "" → errorDetail err = d) ∧
    (err.detail = none ∨ err.detail = some "" → errorDetail err = err.message) := by
  refine ⟨rfl, ?_, ?_, ?_, ?_⟩
  · simp [Dashboard.handleSubmit]
  · simp [Dashboard.handleSubmit]
  · intro d hd hne
    simp [errorDetail, hd, hne]
  · intro h
    rcases h with h | h <;> simp [errorDetail, h]

/-- When `createCategory` fails, the form of `Categories` is neither reset nor
hidden and no refetch is issued. -/
theorem categories_handleSubmit_failure (token : Option String) (err : ApiError)
    (s : CategoriesState) :
    (Categories.handleSubmit token (.error err) s).1 = s ∧
    Effect.refetch ∉ (Categories.handleSubmit token (.error err) s).2 := by
  refine ⟨rfl, ?_⟩
  simp [Categories.handleSubmit]

/-! ## The category list held by `Categories` -/

theorem categories_fetch_failure_keeps_list (token : Option String) (err : ApiError)
    (s : CategoriesState) :
    (Categories.fetchCategories token (.error err) s).1.categories = s.categories := by
  unfold Categories.fetchCategories
  by_cases h : truthy token = true
  · by_cases h401 : err.status = some 401
    · simp only [h, Bool.not_true, Bool.false_eq_true, if_false, h401, if_true]; rfl
    · simp only [h, Bool.not_true, Bool.false_eq_true, if_false, h401]; rfl
  · rw [Bool.not_eq_true] at h
    simp only [h, Bool.not_false, if_true]; rfl

/-- C18. The category list held by `Categories` changes only through a fetch
that succeeds: any event that changes it is a fetch answered with a list while
a token is present.  In particular a failed `deleteCategory` shows the failure
notification, issues no refetch and leaves the state as it was, and a failed
list fetch leaves the list as it was. -/
theorem categories_change_only_on_fetch_success (token : Option String) (s : CategoriesState) :
    (∀ ev : CategoriesEvent, (Categories.step token s ev).categories ≠ s.categories →
      ∃ data, ev = .fetch (.ok data) ∧ truthy token = true) ∧
    (∀ (categoryId : Int) (err : ApiError),
      Categories.handleDelete token categoryId true (.error err) s
        = (s, [.confirm "Are you sure you want to delete this category?",
               .request (deleteCategory (tokenString token) categoryId),
               .alert "Failed to delete category. It might be in use by expenses.",
               .consoleError])) ∧
    (∀ err : ApiError,
      (Categories.fetchCategories token (.error err) s).1.categories = s.categories) := by
  refine ⟨?_, fun _ _ => rfl, fun err => categories_fetch_failure_keeps_list token err s⟩
  intro ev hne
  cases ev with
  | fetch response =>
    cases response with
    | error err => exact absurd (categories_fetch_failure_keeps_list token err s) hne
    | ok data =>
      refine ⟨data, rfl, ?_⟩
      by_contra h
      rw [Bool.not_eq_true] at h
      apply hne
      simp only [Categories.step, Categories.fetchCategories, h, Bool.not_false, if_true]
      rfl
  | submit response =>
    exfalso; apply hne
    cases response <;> rfl
  | delete categoryId confirmed response =>
    exfalso; apply hne
    cases confirmed <;> cases response <;> rfl


/-! ## Totals in the arithmetic of the runtime -/

theorem mem_modifyKeyOf {ν : Type} (k : String) (f : MonthGroupOf ν → MonthGroupOf ν)
    (M : List (String × MonthGroupOf ν)) :
    ∀ kg ∈ modifyKeyOf k f M, kg ∈ M ∨ ∃ kg0 ∈ M, kg = (kg0.1, f kg0.2) := by
  induction M with
  | nil => intro kg h; simp [modifyKeyOf] at h
  | cons a rest ih =>
    obtain ⟨k1, g⟩ := a
    intro kg h
    by_cases hk : k1 = k
    · simp only [modifyKeyOf, hk, if_true, List.mem_cons] at h
      rcases h with h | h
      · exact Or.inr ⟨(k1, g), List.mem_cons_self _ _, by rw [h, hk]⟩
      · exact Or.inl (List.mem_cons_of_mem _ h)
    · simp only [modifyKeyOf, hk, if_false, List.mem_cons] at h
      rcases h with h | h
      · exact Or.inl (by rw [h]; exact List.mem_cons_self _ _)
      · rcases ih kg h with h2 | ⟨kg0, h2, h3⟩
        · exact Or.inl (List.mem_cons_of_mem _ h2)
        · exact Or.inr ⟨kg0, List.mem_cons_of_mem _ h2, h3⟩

theorem sumWith_append_singleton {ν : Type} (ar : Arith ν) (l : List Expense) (e : Expense) :
    sumWith ar (l ++ [e]) = ar.add (sumWith ar l) e.amount := by
  unfold sumWith
  rw [List.foldl_append]
  rfl

theorem pushExpenseWith_totalsAgree {ν : Type} (ar : Arith ν) (e : Expense)
    (g : MonthGroupOf ν) (h : totalsAgree ar g) : totalsAgree ar (pushExpenseWith ar e g) := by
  obtain ⟨h1, h2⟩ := h
  unfold totalsAgree pushExpenseWith
  by_cases hi : isIncome e = true
  · simp only [hi, if_true, List.filter_append, List.filter_cons_of_pos, List.filter_nil,
      Bool.not_true, Bool.false_eq_true, not_false_eq_true, List.filter_cons_of_neg,
      List.append_nil, sumWith_append_singleton]
    exact ⟨by rw [h1], h2⟩
  · rw [Bool.not_eq_true] at hi
    simp only [hi, Bool.false_eq_true, if_false, List.filter_append, not_false_eq_true,
      List.filter_cons_of_neg, List.filter_nil, List.append_nil, Bool.not_false,
      List.filter_cons_of_pos, sumWith_append_singleton]
    exact ⟨h1, by rw [h2]⟩

theorem addExpenseWith_totalsAgree {ν : Type} (ar : Arith ν) (rt : Runtime)
    (M : List (String × MonthGroupOf ν)) (e : Expense)
    (h : ∀ kg ∈ M, totalsAgree ar kg.2) :
    ∀ kg ∈ addExpenseWith ar rt M e, totalsAgree ar kg.2 := by
  intro kg hkg
  unfold addExpenseWith at hkg
  simp only at hkg
  have hM1 : ∀ kg ∈ (if (lookupKeyOf (monthKey rt e) M).isNone = true then
        M ++ [(monthKey rt e,
          ({ year := getFullYear rt (rt.dateParse e.date)
             month := (getMonth rt (rt.dateParse e.date)).map (· + 1)
             expenses := []
             total_income := ar.zero
             total_expenses := ar.zero
             net_balance := ar.zero } : MonthGroupOf ν))]
      else M), totalsAgree ar kg.2 := by
    intro kg1 hkg1
    split at hkg1
    · rcases List.mem_append.1 hkg1 with h1 | h1
      · exact h kg1 h1
      · rw [List.mem_singleton.1 h1]
        exact ⟨rfl, rfl⟩
    · exact h kg1 hkg1
  rcases mem_modifyKeyOf _ _ _ kg hkg with h1 | ⟨kg0, h1, h2⟩
  · exact hM1 kg h1
  · rw [h2]
    exact pushExpenseWith_totalsAgree ar e kg0.2 (hM1 kg0 h1)

theorem buildMonthsMapWith_totalsAgree {ν : Type} (ar : Arith ν) (rt : Runtime)
    (es : List Expense) : ∀ kg ∈ buildMonthsMapWith ar rt es, totalsAgree ar kg.2 := by
  unfold buildMonthsMapWith
  induction es using List.reverseRecOn with
  | nil => intro kg h; simp at h
  | append_singleton es e ih =>
    rw [List.foldl_append]
    exact addExpenseWith_totalsAgree ar rt _ e ih

theorem mem_aggregateWith {ν : Type} {ar : Arith ν} {rt : Runtime} {es : List Expense}
    {g : MonthGroupOf ν} :
    g ∈ aggregateWith ar rt es ↔
      ∃ kg ∈ buildMonthsMapWith ar rt es, withNetBalanceWith ar kg.2 = g := by
  unfold aggregateWith
  rw [(List.perm_insertionSort monthsLeOf _).mem_iff]
  simp only [List.mem_map]
  constructor
  · rintro ⟨g1, ⟨kg, hkg, rfl⟩, rfl⟩
    exact ⟨kg, hkg, rfl⟩
  · rintro ⟨kg, hkg, rfl⟩
    exact ⟨kg.2, ⟨kg, hkg, rfl⟩, rfl⟩


/-- C4. In every produced group, `total_income` is the sum of the amounts of
the group's expenses whose category exists and has type `income`, and
`total_expenses` is the sum of the amounts of all its other expenses (category
absent, or of any other type).  Each sum is the one the code forms: from `0`,
adding the amounts one after the other in the order of the group's list, in
the arithmetic of the runtime, whatever that arithmetic is (IEEE doubles for
JavaScript; exact rationals are a special case). -/
theorem aggregate_totals_in_arithmetic {ν : Type} (ar : Arith ν) (rt : Runtime)
    (allExpenses : List Expense) :
    ∀ g ∈ aggregateWith ar rt allExpenses,
      g.total_income
        = sumWith ar (g.expenses.filter (fun e => decide (hasIncomeCategory e))) ∧
      g.total_expenses
        = sumWith ar (g.expenses.filter (fun e => !decide (hasIncomeCategory e))) := by
  intro g hg
  obtain ⟨kg, hkg, rfl⟩ := mem_aggregateWith.1 hg
  have h := buildMonthsMapWith_totalsAgree ar rt allExpenses kg hkg
  simp only [← isIncome_eq_decide]
  exact h

/-- Witness for C4, in an arithmetic that rounds: two incomes of 1/2 and 3/4
and an expense of 5/2 in one month, every total rounded down to a whole number
after each addition.  The income total is 0, not 5/4, and the expense total is
2, not 5/2. -/
theorem aggregate_totals_in_arithmetic_witness :
    (⟨some 2024, some 1, roundingExample, 0, 2, -2⟩ : MonthGroupOf ℚ) ∈
        aggregateWith floorArith (ecmaRuntime 0) roundingExample ∧
      ((0 : ℚ) = sumWith floorArith
          (roundingExample.filter (fun e => decide (hasIncomeCategory e))) ∧
       (2 : ℚ) = sumWith floorArith
          (roundingExample.filter (fun e => !decide (hasIncomeCategory e)))) :=
  ⟨by decide!,
   aggregate_totals_in_arithmetic floorArith (ecmaRuntime 0) roundingExample
     ⟨some 2024, some 1, roundingExample, 0, 2, -2⟩ (by decide!)⟩

/-! ## The exact aggregation is the aggregation in exact arithmetic -/

theorem sumWith_exact (l : List Expense) : sumWith exactArith l = sumAmounts l := by
  induction l using List.reverseRecOn with
  | nil => rfl
  | append_singleton l e ih =>
    rw [sumWith_append_singleton, ih, sumAmounts_append]
    simp [exactArith, sumAmounts]

theorem toExactGroup_pushExpense (e : Expense) (g : MonthGroupOf ℚ) :
    toExactGroup (pushExpenseWith exactArith e g) = pushExpense e (toExactGroup g) := by
  unfold pushExpenseWith pushExpense toExactGroup
  by_cases hi : isIncome e = true
  · simp only [hi, if_true]; rfl
  · simp only [hi, Bool.false_eq_true, if_false]; rfl

theorem lookupKey_toExact (k : String) (M : List (String × MonthGroupOf ℚ)) :
    (lookupKey k (M.map (fun kg => (kg.1, toExactGroup kg.2)))).isNone
      = (lookupKeyOf k M).isNone := by
  induction M with
  | nil => rfl
  | cons a rest ih =>
    obtain ⟨k1, g⟩ := a
    by_cases hk : k1 = k
    · simp [lookupKey, lookupKeyOf, hk]
    · simp [lookupKey, lookupKeyOf, hk, ih]

theorem modifyKey_toExact (k : String) (e : Expense) (M : List (String × MonthGroupOf ℚ)) :
    (modifyKeyOf k (pushExpenseWith exactArith e) M).map (fun kg => (kg.1, toExactGroup kg.2))
      = modifyKey k (pushExpense e) (M.map (fun kg => (kg.1, toExactGroup kg.2))) := by
  induction M with
  | nil => rfl
  | cons a rest ih =>
    obtain ⟨k1, g⟩ := a
    by_cases hk : k1 = k
    · simp [modifyKey, modifyKeyOf, hk, toExactGroup_pushExpense]
    · simp [modifyKey, modifyKeyOf, hk, ih]

theorem addExpense_toExact (rt : Runtime) (M : List (String × MonthGroupOf ℚ)) (e : Expense) :
    (addExpenseWith exactArith rt M e).map (fun kg => (kg.1, toExactGroup kg.2))
      = addExpense rt (M.map (fun kg => (kg.1, toExactGroup kg.2))) e := by
  unfold addExpenseWith addExpense
  simp only [modifyKey_toExact, lookupKey_toExact]
  by_cases hn : (lookupKeyOf (monthKey rt e) M).isNone = true
  · simp only [hn, if_true, List.map_append, List.map_cons, List.map_nil]
    rfl
  · simp only [hn, Bool.false_eq_true, if_false]

theorem buildMonthsMap_toExact (rt : Runtime) (es : List Expense) :
    (buildMonthsMapWith exactArith rt es).map (fun kg => (kg.1, toExactGroup kg.2))
      = buildMonthsMap rt es := by
  unfold buildMonthsMapWith buildMonthsMap
  induction es using List.reverseRecOn with
  | nil => rfl
  | append_singleton es e ih =>
    rw [List.foldl_append, List.foldl_append]
    simp only [List.foldl_cons, List.foldl_nil]
    rw [addExpense_toExact, ih]

/-- In exact arithmetic the aggregation with the arithmetic as a parameter is
the aggregation `aggregate`, group by group and in the same order. -/
theorem aggregateWith_exact (rt : Runtime) (es : List Expense) :
    (aggregateWith exactArith rt es).map toExactGroup = aggregate rt es := by
  unfold aggregateWith aggregate sortMonths
  rw [List.map_insertionSort monthsLeOf monthsLe toExactGroup _ (fun a _ b _ => Iff.rfl)]
  rw [← buildMonthsMap_toExact rt es]
  simp only [List.map_map]
  rfl


/-! ## The loading flag -/

theorem head_of_fetch_steps {ω : Type} (a b c : Step ω) (body : List (Step ω)) :
    ([a, b] ++ body ++ [c]).head? = some a ∧ ([a, b] ++ body ++ [c]).getLast? = some c := by
  constructor
  · rfl
  · rw [List.getLast?_append]
    rfl

theorem monthlyView_steps_agree (rt : Runtime) (token : Option String)
    (response : Except ApiError (List Expense)) (s : MonthlyViewState) :
    MonthlyView.fetchMonthlyData rt token response s
      = ((writesOf (MonthlyView.fetchMonthlyDataSteps rt token response)).foldl
            MonthlyView.applyWrite s,
         effectsOf (MonthlyView.fetchMonthlyDataSteps rt token response)) ∧
    (writesOf (MonthlyView.fetchMonthlyDataSteps rt token response)).filter
        (fun w => match w with
          | .setLoading _ => true
          | _ => false)
      = [.setLoading true, .setLoading false] := by
  unfold MonthlyView.fetchMonthlyDataSteps MonthlyView.fetchMonthlyDataBody
    MonthlyView.fetchMonthlyData
  cases token with
  | none => exact ⟨rfl, rfl⟩
  | some t =>
    by_cases ht : t = ""
    · subst ht; exact ⟨rfl, rfl⟩
    · have htr : truthy (some t) = true := by simp [truthy, ht]
      cases response with
      | ok es =>
        simp only [htr, Bool.not_true, Bool.false_eq_true, if_false, if_neg ht]
        exact ⟨rfl, rfl⟩
      | error err =>
        by_cases h401 : err.status = some 401
        · simp only [htr, Bool.not_true, Bool.false_eq_true, if_false, if_neg ht, h401, if_true]
          exact ⟨rfl, rfl⟩
        · simp only [htr, Bool.not_true, Bool.false_eq_true, if_false, if_neg ht, h401]
          exact ⟨rfl, rfl⟩

theorem categories_steps_agree (token : Option String)
    (response : Except ApiError (List Category)) (s : CategoriesState) :
    Categories.fetchCategories token response s
      = ((writesOf (Categories.fetchCategoriesSteps token response)).foldl
            Categories.applyWrite s,
         effectsOf (Categories.fetchCategoriesSteps token response)) ∧
    (writesOf (Categories.fetchCategoriesSteps token response)).filter
        (fun w => match w with
          | .setLoading _ => true
          | _ => false)
      = [.setLoading true, .setLoading false] := by
  unfold Categories.fetchCategoriesSteps Categories.fetchCategoriesBody
    Categories.fetchCategories
  by_cases htr : truthy token = true
  · cases response with
    | ok data =>
      simp only [htr, Bool.not_true, Bool.false_eq_true, if_false]
      exact ⟨rfl, rfl⟩
    | error err =>
      by_cases h401 : err.status = some 401
      · simp only [htr, Bool.not_true, Bool.false_eq_true, if_false, h401, if_true]
        exact ⟨rfl, rfl⟩
      · simp only [htr, Bool.not_true, Bool.false_eq_true, if_false, h401]
        exact ⟨rfl, rfl⟩
  · rw [Bool.not_eq_true] at htr
    simp only [htr, Bool.not_false, if_true]
    exact ⟨rfl, rfl⟩

theorem dashboard_steps_agree (token : Option String)
    (r1 : Except ApiError Analytics) (r2 : Except ApiError (List Expense))
    (r3 : Except ApiError (List Category)) (s : DashboardState) :
    Dashboard.fetchData token r1 r2 r3 s
      = ((writesOf (Dashboard.fetchDataSteps token r1 r2 r3)).foldl Dashboard.applyWrite s,
         effectsOf (Dashboard.fetchDataSteps token r1 r2 r3)) ∧
    (writesOf (Dashboard.fetchDataSteps token r1 r2 r3)).filter
        (fun w => match w with
          | .setLoading _ => true
          | _ => false)
      = [.setLoading true, .setLoading false] := by
  cases r1 with
  | error e => exact ⟨rfl, rfl⟩
  | ok a =>
    cases r2 with
    | error e => exact ⟨rfl, rfl⟩
    | ok es =>
      cases r3 with
      | error e => exact ⟨rfl, rfl⟩
      | ok cs => exact ⟨rfl, rfl⟩

/-- C19. In each of the three fetch routines the first call is
`setLoading(true)` and the last call is `setLoading(false)`, and these are the
only two calls of `setLoading`, on every path: all requests answered, a
request failed (with 401 or otherwise), or no token present.  The state the
routine leaves is the one these calls produce, and its loading flag is
`false`. -/
theorem loading_flag_first_and_last (token : Option String) :
    (∀ (r1 : Except ApiError Analytics) (r2 : Except ApiError (List Expense))
        (r3 : Except ApiError (List Category)) (s : DashboardState),
      (Dashboard.fetchDataSteps token r1 r2 r3).head? = some (.write (.setLoading true)) ∧
      (Dashboard.fetchDataSteps token r1 r2 r3).getLast? = some (.write (.setLoading false)) ∧
      (writesOf (Dashboard.fetchDataSteps token r1 r2 r3)).filter
          (fun w => match w with
            | .setLoading _ => true
            | _ => false)
        = [.setLoading true, .setLoading false] ∧
      Dashboard.fetchData token r1 r2 r3 s
        = ((writesOf (Dashboard.fetchDataSteps token r1 r2 r3)).foldl Dashboard.applyWrite s,
           effectsOf (Dashboard.fetchDataSteps token r1 r2 r3)) ∧
      (Dashboard.fetchData token r1 r2 r3 s).1.loading = false) ∧
    (∀ (response : Except ApiError (List Category)) (s : CategoriesState),
      (Categories.fetchCategoriesSteps token response).head? = some (.write (.setLoading true)) ∧
      (Categories.fetchCategoriesSteps token response).getLast?
        = some (.write (.setLoading false)) ∧
      (writesOf (Categories.fetchCategoriesSteps token response)).filter
          (fun w => match w with
            | .setLoading _ => true
            | _ => false)
        = [.setLoading true, .setLoading false] ∧
      Categories.fetchCategories token response s
        = ((writesOf (Categories.fetchCategoriesSteps token response)).foldl
              Categories.applyWrite s,
           effectsOf (Categories.fetchCategoriesSteps token response)) ∧
      (Categories.fetchCategories token response s).1.loading = false) ∧
    (∀ (rt : Runtime) (response : Except ApiError (List Expense)) (s : MonthlyViewState),
      (MonthlyView.fetchMonthlyDataSteps rt token response).head?
        = some (.write (.setLoading true)) ∧
      (MonthlyView.fetchMonthlyDataSteps rt token response).getLast?
        = some (.write (.setLoading false)) ∧
      (writesOf (MonthlyView.fetchMonthlyDataSteps rt token response)).filter
          (fun w => match w with
            | .setLoading _ => true
            | _ => false)
        = [.setLoading true, .setLoading false] ∧
      MonthlyView.fetchMonthlyData rt token response s
        = ((writesOf (MonthlyView.fetchMonthlyDataSteps rt token response)).foldl
              MonthlyView.applyWrite s,
           effectsOf (MonthlyView.fetchMonthlyDataSteps rt token response)) ∧
      (MonthlyView.fetchMonthlyData rt token response s).1.loading = false) := by
  refine ⟨?_, ?_, ?_⟩
  · intro r1 r2 r3 s
    obtain ⟨h1, h2⟩ := dashboard_steps_agree token r1 r2 r3 s
    refine ⟨(head_of_fetch_steps _ _ _ _).1, (head_of_fetch_steps _ _ _ _).2, h2, h1, ?_⟩
    cases r1 with
    | error e => rfl
    | ok a =>
      cases r2 with
      | error e => rfl
      | ok es =>
        cases r3 with
        | error e => rfl
        | ok cs => rfl
  · intro response s
    obtain ⟨h1, h2⟩ := categories_steps_agree token response s
    refine ⟨(head_of_fetch_steps _ _ _ _).1, (head_of_fetch_steps _ _ _ _).2, h2, h1, ?_⟩
    unfold Categories.fetchCategories
    by_cases h : truthy token = true
    · cases response with
      | ok data => simp only [h, Bool.not_true, Bool.false_eq_true, if_false]
      | error err =>
        by_cases h401 : err.status = some 401
        · simp only [h, Bool.not_true, Bool.false_eq_true, if_false, h401, if_true]
        · simp only [h, Bool.not_true, Bool.false_eq_true, if_false, h401]
    · rw [Bool.not_eq_true] at h
      simp only [h, Bool.not_false, if_true]
  · intro rt response s
    obtain ⟨h1, h2⟩ := monthlyView_steps_agree rt token response s
    refine ⟨(head_of_fetch_steps _ _ _ _).1, (head_of_fetch_steps _ _ _ _).2, h2, h1, ?_⟩
    unfold MonthlyView.fetchMonthlyData
    cases token with
    | none => rfl
    | some t =>
      by_cases ht : t = ""
      · simp only [if_pos ht]
      · cases response with
        | ok es => simp only [if_neg ht]
        | error err =>
          by_cases h401 : err.status = some 401
          · simp only [if_neg ht, h401, if_true]
          · simp only [if_neg ht, h401, if_false]

end ExpenseTracker
